import Mathlib

/-!
Shallow embedding of the RWA-VC canonicalization / hash / sign / verify core
(`vc/crypto.py`, `vc/issuer.py`, `vc/verifier.py`).

Python dictionaries are modelled as insertion-ordered association lists with
string keys; JSON-compatible values are modelled by the inductive `Json`.
The external elliptic-curve primitive (eth-account's `sign_typed_data` /
`recover_typed_data_signer`) and the keccak hash are injected as an abstract
`CryptoPrim` record, mirroring the boundary the code treats as opaque.
-/

namespace RwaVc

/-- JSON-compatible value tree (the document model of the VC core).
Objects keep Python dict insertion order; keys are unique in any value that
originates from parsed JSON. -/
inductive Json where
  | null : Json
  | bool : Bool → Json
  | num : Int → Json
  | str : String → Json
  | arr : List Json → Json
  | obj : List (String × Json) → Json

/-- First-match lookup in an association list (Python `d[k]` / `k in d`). -/
def lookupKey (k : String) : List (String × Json) → Option Json
  | [] => none
  | (a, v) :: rest => if a = k then some v else lookupKey k rest

/-- Is this value a Python dict (`isinstance(x, dict)`)? -/
def Json.isObj : Json → Bool
  | .obj _ => true
  | _ => false

/-- Python truthiness of a JSON value. -/
def Json.truthy : Json → Bool
  | .null => false
  | .bool b => b
  | .num n => n != 0
  | .str s => s ≠ ""
  | .arr xs => ¬ xs.isEmpty
  | .obj kvs => ¬ kvs.isEmpty

/-- `d.get(k)` on a dict, `None` rendered as `Json.null` (Python conflates a
stored `None` with an absent key in every use site of this codebase). -/
def Json.getKeyD (j : Json) (k : String) (dflt : Json) : Json :=
  match j with
  | .obj kvs => (lookupKey k kvs).getD dflt
  | _ => dflt

/-- Value at key, with absence (or a non-dict receiver) as `null`. -/
def Json.getKeyN (j : Json) (k : String) : Json := j.getKeyD k .null

/-- Apply `f` to the value of the first entry with key `k` (no-op when the key
is absent): the in-place mutation `d[k] = f(d[k])` on an existing key. -/
def mapFirst (k : String) (f : Json → Json) : List (String × Json) → List (String × Json)
  | [] => []
  | (a, v) :: rest => if a = k then (a, f v) :: rest else (a, v) :: mapFirst k f rest

/-- Remove the first entry with key `k` (Python `d.pop(k, None)`). -/
def eraseFirst (k : String) : List (String × Json) → List (String × Json)
  | [] => []
  | (a, v) :: rest => if a = k then rest else (a, v) :: eraseFirst k rest

/-- In-place update of the value stored at key `k` of a dict, identity on
non-dicts and on dicts lacking the key. -/
def atKey (k : String) (f : Json → Json) : Json → Json
  | .obj kvs => .obj (mapFirst k f kvs)
  | j => j

/- ### Canonical JSON (`to_canonical_json`)

`json.dumps(data, sort_keys=True, separators=(",", ":"), ensure_ascii=False)`:
keys sorted at every depth, no whitespace, UTF-8 with only the mandatory
escapes. -/

/-- Lowercase hexadecimal digit. -/
def hexDigitChar (n : Nat) : Char :=
  if n < 10 then Char.ofNat (48 + n) else Char.ofNat (87 + n)

/-- Escape of a single character inside a JSON string literal, as produced by
`json.dumps(..., ensure_ascii=False)`. -/
def escChar (c : Char) : String :=
  if c = '"' then "\\\""
  else if c = '\\' then "\\\\"
  else if c = '\n' then "\\n"
  else if c = '\r' then "\\r"
  else if c = '\t' then "\\t"
  else if c = Char.ofNat 8 then "\\b"
  else if c = Char.ofNat 12 then "\\f"
  else if c.toNat < 32 then
    "\\u00" ++ String.singleton (hexDigitChar (c.toNat / 16)) ++
      String.singleton (hexDigitChar (c.toNat % 16))
  else String.singleton c

/-- JSON string literal rendering. -/
def quoteStr (s : String) : String :=
  "\"" ++ String.join (s.data.map escChar) ++ "\""

/-- Code-point lexicographic comparison of character lists (Python string
ordering, the order `sorted`/`sort_keys` uses). -/
def charsLe : List Char → List Char → Bool
  | [], _ => true
  | _ :: _, [] => false
  | c :: cs, d :: ds =>
      if c < d then true
      else if d < c then false
      else charsLe cs ds

/-- Python `<=` on strings. -/
def keyLe (a b : String) : Bool := charsLe a.data b.data

/-- Stable insertion into a key-sorted list of (key, rendered value) pairs. -/
def insPair (x : String × String) : List (String × String) → List (String × String)
  | [] => [x]
  | y :: ys => if keyLe x.1 y.1 then x :: y :: ys else y :: insPair x ys

/-- Stable insertion sort by key (Python `sort_keys=True`). -/
def sortPairs : List (String × String) → List (String × String)
  | [] => []
  | x :: xs => insPair x (sortPairs xs)

/-- Render sorted `key: renderedValue` pairs of an object body. -/
def renderPairs (ps : List (String × String)) : List String :=
  ps.map (fun p => quoteStr p.1 ++ ":" ++ p.2)

mutual

/-- Canonical JSON string of a value: sorted keys at every depth, compact
separators (`to_canonical_json`). -/
def toCanonicalJson : Json → String
  | .null => "null"
  | .bool b => if b then "true" else "false"
  | .num n => toString n
  | .str s => quoteStr s
  | .arr xs => "[" ++ String.intercalate "," (canonArr xs) ++ "]"
  | .obj kvs =>
      "\x7b" ++ String.intercalate "," (renderPairs (sortPairs (canonPairs kvs))) ++ "\x7d"
termination_by structural j => j

/-- Canonical JSON of each array element. -/
def canonArr : List Json → List String
  | [] => []
  | x :: xs => toCanonicalJson x :: canonArr xs
termination_by structural l => l

/-- (key, canonical JSON of value) for each object entry, in insertion order. -/
def canonPairs : List (String × Json) → List (String × String)
  | [] => []
  | (k, v) :: kvs => (k, toCanonicalJson v) :: canonPairs kvs
termination_by structural l => l

end

/- ### Python scalar coercions used by the code -/

mutual

/-- Python `repr` of a JSON value, used by `str()` on non-string values;
containers follow Python literal syntax (keys and strings single-quoted,
entries separated by a comma and a space). -/
def pyRepr : Json → String
  | .null => "None"
  | .bool b => if b then "True" else "False"
  | .num n => toString n
  | .str s => "'" ++ s ++ "'"
  | .arr xs => "[" ++ String.intercalate ", " (pyReprArr xs) ++ "]"
  | .obj kvs => "\x7b" ++ String.intercalate ", " (pyReprKvs kvs) ++ "\x7d"
termination_by structural j => j

/-- `repr` of each array element. -/
def pyReprArr : List Json → List String
  | [] => []
  | x :: xs => pyRepr x :: pyReprArr xs
termination_by structural l => l

/-- `repr` of each dict entry. -/
def pyReprKvs : List (String × Json) → List String
  | [] => []
  | (k, v) :: kvs => ("'" ++ k ++ "': " ++ pyRepr v) :: pyReprKvs kvs
termination_by structural l => l

end

/-- Python `str()` of a JSON value. -/
def pyStr : Json → String
  | .str s => s
  | j => pyRepr j

/-- Python `int()` of a JSON value; raises (`.error`) on values `int()`
rejects. -/
def pyInt : Json → Except String Int
  | .num n => .ok n
  | .bool b => .ok (if b then 1 else 0)
  | .str s =>
      match s.trim.toInt? with
      | some n => .ok n
      | none => .error "ValueError: invalid literal for int"
  | _ => .error "TypeError: int() argument"

/-- Python `d.get(k, default)`: raises (`.error`) when the receiver is not a
dict, as attribute access does. -/
def pyGetD (j : Json) (k : String) (dflt : Json) : Except String Json :=
  match j with
  | .obj kvs => .ok ((lookupKey k kvs).getD dflt)
  | _ => .error "AttributeError: get"

/-- Python `d.get(k)` returning `None` (`Option.none`) for an absent key;
raises when the receiver is not a dict. -/
def pyGet (j : Json) (k : String) : Except String (Option Json) :=
  match j with
  | .obj kvs => .ok (lookupKey k kvs)
  | _ => .error "AttributeError: get"

/-- Truthiness of a Python optional (`None` is falsy). -/
def truthyOpt : Option Json → Bool
  | none => false
  | some j => j.truthy

/-- Python `a or b` over optionals. -/
def pyOrOpt (a b : Option Json) : Option Json :=
  if truthyOpt a then a else b

/-- Python `x or {}` (used as `_get_by_path(...) or {}`). -/
def pyOrEmptyObj (j : Json) : Json :=
  if j.truthy then j else .obj []

/- ### Crypto boundary (`vc/crypto.py`)

The keccak hash and the EIP-712 sign/recover primitive live in external
libraries (`eth_utils`, `eth_account`); they are injected as an abstract
record, exactly the opaque capability the code relies on.  `sign` and
`recover` may fail (`none`), modelling the exceptions `Account.from_key` /
`Account.recover_message` raise on unusable keys or undecodable
signatures. -/

structure CryptoPrim where
  /-- `to_hex(keccak(canonical.encode("utf-8")))` as one opaque map from the
  canonical string to the 0x-prefixed digest string. -/
  keccakHex : String → String
  /-- `sign_typed_data`: private key (any JSON value; non-keys fail) and
  typed data to (signature hex, signer address); `none` models the raised
  exception. -/
  sign : Json → Json → Option (String × String)
  /-- `recover_typed_data_signer`: typed data and signature hex to the
  recovered address; `none` models the raised exception. -/
  recover : Json → String → Option String
  /-- `private_key_to_address`: derived identity of a key. -/
  privToAddr : Json → String

/-- `keccak256_json`: digest of the canonical JSON form. -/
def keccak256Json (C : CryptoPrim) (d : Json) : String :=
  C.keccakHex (toCanonicalJson d)

/-- `Eip712Domain` (dataclass; `name` and `verifyingContract` carry whatever
value the untyped config supplied, `version` went through `str()` and
`chainId` through `int()`). -/
structure Eip712Domain where
  name : Json
  version : String
  chainId : Int
  verifyingContract : Json

/-- `Eip712Domain.as_dict`. -/
def Eip712Domain.asDict (d : Eip712Domain) : Json :=
  .obj [("name", d.name), ("version", .str d.version),
        ("chainId", .num d.chainId), ("verifyingContract", d.verifyingContract)]

/-- The EIP712Domain type descriptor list shared by both typed messages. -/
def eip712DomainTypes : Json :=
  .arr [.obj [("name", .str "name"), ("type", .str "string")],
        .obj [("name", .str "version"), ("type", .str "string")],
        .obj [("name", .str "chainId"), ("type", .str "uint256")],
        .obj [("name", .str "verifyingContract"), ("type", .str "address")]]

/-- `build_section_typed_data`. -/
def buildSectionTypedData (domain : Eip712Domain) (path sectionHashHex : String) : Json :=
  .obj [("types", .obj [("EIP712Domain", eip712DomainTypes),
                        ("Section", .arr [.obj [("name", .str "path"), ("type", .str "string")],
                                          .obj [("name", .str "sectionHash"), ("type", .str "bytes32")]])]),
        ("primaryType", .str "Section"),
        ("domain", domain.asDict),
        ("message", .obj [("path", .str path), ("sectionHash", .str sectionHashHex)])]

/-- `build_document_typed_data`. -/
def buildDocumentTypedData (domain : Eip712Domain) (documentHashHex : String) : Json :=
  .obj [("types", .obj [("EIP712Domain", eip712DomainTypes),
                        ("Document", .arr [.obj [("name", .str "documentHash"), ("type", .str "bytes32")]])]),
        ("primaryType", .str "Document"),
        ("domain", domain.asDict),
        ("message", .obj [("documentHash", .str documentHashHex)])]

/-- Python `str.lower()` (ASCII range, which covers the hex addresses the
verifier lowercases). -/
def pyLower (s : String) : String :=
  String.mk (s.data.map (fun c =>
    if 65 ≤ c.toNat && c.toNat ≤ 90 then Char.ofNat (c.toNat + 32) else c))

/- ### Path resolution (`_get_by_path`) -/

/-- Split a character list on `/`. -/
def splitSlashAux (cur : List Char) : List Char → List String
  | [] => [String.mk cur.reverse]
  | c :: cs =>
      if c = '/' then String.mk cur.reverse :: splitSlashAux [] cs
      else splitSlashAux (c :: cur) cs

/-- `[p for p in path.split("/") if p]`. -/
def pathParts (s : String) : List String :=
  (splitSlashAux [] s.data).filter (fun p => p ≠ "")

/-- Walk nested dicts by the given keys; any missing key or non-dict node
yields `None` (`Json.null`). -/
def getParts : Json → List String → Json
  | cur, [] => cur
  | .obj kvs, p :: ps =>
      match lookupKey p kvs with
      | some v => getParts v ps
      | none => .null
  | _, _ :: _ => .null

/-- `_get_by_path`. -/
def getByPath (doc : Json) (path : String) : Json :=
  getParts doc (pathParts path)

/-- Mutation of the value a key path resolves to: identity whenever any
intermediate key is missing or a non-dict is hit (mirroring the
resolve-then-mutate pattern of the issuer and the strip helpers). -/
def updateAt : List String → (Json → Json) → Json → Json
  | [], f, doc => f doc
  | p :: ps, f, doc => atKey p (updateAt ps f) doc

/-- The fixed section paths, in issuance order. -/
def SECTION_PATHS : List String :=
  ["/credentialSubject/identity", "/credentialSubject/compliance", "/credentialSubject/custody"]

/- ### Proof stripping and proof-template updates (`vc/issuer.py`) -/

/-- Drop an `sProof` entry from a dict (`section.pop("sProof", None)`). -/
def dropSProof : Json → Json
  | .obj kvs => .obj (eraseFirst "sProof" kvs)
  | j => j

/-- Drop the root `proof` entry (`doc.pop("proof", None)`). -/
def removeProofRoot : Json → Json
  | .obj kvs => .obj (eraseFirst "proof" kvs)
  | j => j

/-- `_strip_existing_eip712` = `_strip_eip712`: a copy with every section
`sProof` and the root `proof` removed. -/
def stripEip712 (vc : Json) : Json :=
  removeProofRoot (SECTION_PATHS.foldl (fun d p => updateAt (pathParts p) dropSProof d) vc)

/-- `proof[k] = v` guarded by `if k in proof` (only overwrite an existing
field). -/
def Json.setIfPresent (j : Json) (k : String) (v : Json) : Json :=
  match j with
  | .obj kvs =>
      if (lookupKey k kvs).isSome then .obj (mapFirst k (fun _ => v) kvs) else j
  | _ => j

/-- The field overwrites `_update_section_proof` performs on an existing
`sProof` dict (non-dicts are left alone, as the `isinstance` guard does). -/
def sectionProofWriter (sectionHash signature : String) (pf : Json) : Json :=
  if pf.isObj then
    ((pf.setIfPresent "type" (.str "Eip712Signature2023")).setIfPresent
      "sectionHash" (.str sectionHash)).setIfPresent "proofValue" (.str signature)
  else pf

/-- `_update_section_proof`, as a pure update of the section value. -/
def updateSectionProof (sectionHash signature : String) (sec : Json) : Json :=
  atKey "sProof" (sectionProofWriter sectionHash signature) sec

/-- The field overwrites `_update_top_proof` performs on an existing root
`proof` dict. -/
def topProofWriter (signature : String) (pf : Json) : Json :=
  if pf.isObj then
    (pf.setIfPresent "type" (.str "Eip712Signature2023")).setIfPresent
      "proofValue" (.str signature)
  else pf

/-- `_update_top_proof`, as a pure update of the document. -/
def updateTopProof (signature : String) (doc : Json) : Json :=
  atKey "proof" (topProofWriter signature) doc

/- ### Issuance (`issue`) -/

/-- Domain construction in `issue`: `Eip712Domain(name=domain_cfg.get(...),
version=str(...), chainId=int(...), verifyingContract=verifying_contract)`. -/
def resolveDomain (domainCfg : Json) (verifyingContract : String) :
    Except String Eip712Domain := do
  let name ← pyGetD domainCfg "name" (.str "RWA-VC")
  let versionJ ← pyGetD domainCfg "version" (.str "1")
  let chainJ ← pyGetD domainCfg "chainId" (.num 1)
  let chainId ← pyInt chainJ
  .ok ⟨name, pyStr versionJ, chainId, .str verifyingContract⟩

/-- The per-section loop of `issue`: hash the clean section, sign the Section
typed message, write the proof template, append the metadata record. -/
def issueSections (C : CryptoPrim) (domain : Eip712Domain) (clean : Json) :
    List (String × Json) → Json → List Json → Except String (Json × List Json)
  | [], issued, meta => .ok (issued, meta)
  | (path, priv) :: rest, issued, meta =>
      let sec := getByPath issued path
      if sec.isObj then
        let sectionClean := pyOrEmptyObj (getByPath clean path)
        let sectionHash := keccak256Json C sectionClean
        let typed := buildSectionTypedData domain path sectionHash
        match C.sign priv typed with
        | none => .error "SigningError"
        | some (signature, _) =>
            issueSections C domain clean rest
              (updateAt (pathParts path) (updateSectionProof sectionHash signature) issued)
              (meta ++ [Json.obj [("path", .str path), ("sectionHash", .str sectionHash)]])
      else issueSections C domain clean rest issued meta

/-- `issue(vc, keys_cfg, verifying_contract)`: returns the issued document and
the ordered proof metadata, or the propagated signing/config exception. -/
def issue (C : CryptoPrim) (vc keysCfg : Json)
    (verifyingContract : String := "0x0000000000000000000000000000000000000000") :
    Except String (Json × List Json) := do
  let issued := vc
  let domainCfg ← pyGetD keysCfg "domain" (.obj [])
  let domain ← resolveDomain domainCfg verifyingContract
  let keys ← pyGetD keysCfg "keys" (.obj [])
  let privIdentity := (← pyGet keys "identity").getD .null
  let privCompliance := (← pyGet keys "compliance").getD .null
  let privCustody := (← pyGet keys "custody").getD .null
  let privDocument := (← pyGet keys "document").getD .null
  let clean := stripEip712 issued
  let (issued2, meta) ← issueSections C domain clean
    [("/credentialSubject/identity", privIdentity),
     ("/credentialSubject/compliance", privCompliance),
     ("/credentialSubject/custody", privCustody)] issued []
  let clean2 := stripEip712 issued2
  let docHash := keccak256Json C clean2
  let typedDoc := buildDocumentTypedData domain docHash
  match C.sign privDocument typedDoc with
  | none => .error "SigningError"
  | some (sigDoc, _) =>
      .ok (updateTopProof sigDoc issued2,
           meta ++ [Json.obj [("path", .str "/"), ("documentHash", .str docHash)]])

/- ### Verification (`vc/verifier.py`) -/

/-- `_role_for_path`. -/
def strEndsWith (s t : String) : Bool :=
  t.data.isSuffixOf s.data

/-- Role of a section path. -/
def roleForPath (path : String) : Option String :=
  if strEndsWith path "/identity" then some "identity"
  else if strEndsWith path "/compliance" then some "compliance"
  else if strEndsWith path "/custody" then some "custody"
  else none

/-- The default domain dict the verifier uses when a proof embeds none. -/
def defaultDomainJson : Json :=
  .obj [("name", .str "RWA-VC"), ("version", .str "1"), ("chainId", .num 1),
        ("verifyingContract", .str "0x0000000000000000000000000000000000000000")]

/-- Domain reconstruction in `verify` from a proof's embedded domain dict. -/
def parseVerifyDomain (dd : Json) : Except String Eip712Domain := do
  let name ← pyGetD dd "name" (.str "RWA-VC")
  let versionJ ← pyGetD dd "version" (.str "1")
  let chainJ ← pyGetD dd "chainId" (.num 1)
  let chainId ← pyInt chainJ
  let vctr ← pyGetD dd "verifyingContract" (.str "0x0000000000000000000000000000000000000000")
  .ok ⟨name, pyStr versionJ, chainId, vctr⟩

/-- `recover_typed_data_signer` applied to a stored `proofValue` of arbitrary
JSON type: non-strings and undecodable signatures raise. -/
def recoverJ (C : CryptoPrim) (typed : Json) (sig : Json) : Except String String :=
  match sig with
  | .str s =>
      match C.recover typed s with
      | some a => .ok a
      | none => .error "BadSignatureError"
  | _ => .error "TypeError: signature"

/-- `x or {}` over the optional `expected_addresses` argument. -/
def pyOrEmptyObjOpt : Option Json → Json
  | some j => if j.truthy then j else .obj []
  | none => .obj []

/-- Lookup returning `none` for an absent key or non-dict receiver. -/
def Json.getKeyOpt (j : Json) (k : String) : Option Json :=
  match j with
  | .obj kvs => lookupKey k kvs
  | _ => none

/-- Python `s == v` of a string against an optional stored value. -/
def strEqPy (s : String) : Option Json → Bool
  | some (.str t) => s = t
  | _ => false

/-- The per-section body of `verify`: `none` when the section is absent,
otherwise one result record. -/
def sectionStep (C : CryptoPrim) (vc clean : Json) (expected : Option Json)
    (path : String) : Except String (Option Json) :=
  let sec := getByPath vc path
  if sec.isObj then
    let proof := sec.getKeyN "sProof"
    if proof.isObj then do
      let sectionClean := pyOrEmptyObj (getByPath clean path)
      let computedHash := keccak256Json C sectionClean
      let domainDict := proof.getKeyD "domain" defaultDomainJson
      let domain ← parseVerifyDomain domainDict
      let typed := buildSectionTypedData domain path computedHash
      let signature := proof.getKeyD "proofValue" (.str "")
      let recovered ← recoverJ C typed signature
      let hashOk := strEqPy computedHash (proof.getKeyOpt "sectionHash")
      let role := roleForPath path
      let expectedFromKeys ←
        match role with
        | some r => pyGet (pyOrEmptyObjOpt expected) r
        | none => pure none
      let expectedSigner := pyOrOpt (proof.getKeyOpt "signer") expectedFromKeys
      let addrOk :=
        if truthyOpt expectedSigner then
          pyLower recovered == pyLower (pyStr (expectedSigner.getD .null))
        else true
      let typeOk := strEqPy "Eip712Signature2023" (proof.getKeyOpt "type")
      .ok (some (.obj [("path", .str path),
                       ("ok", .bool (hashOk && addrOk && typeOk)),
                       ("hash_ok", .bool hashOk),
                       ("addr_ok", .bool addrOk),
                       ("type_ok", .bool typeOk),
                       ("recovered", .str recovered),
                       ("expected_signer", expectedSigner.getD .null),
                       ("role", match role with | some r => .str r | none => .null)]))
    else
      .ok (some (.obj [("path", .str path), ("ok", .bool false),
                       ("reason", .str "missing sProof")]))
  else .ok none

/-- The section loop of `verify`. -/
def sectionSteps (C : CryptoPrim) (vc clean : Json) (expected : Option Json) :
    List String → Except String (List Json)
  | [] => .ok []
  | p :: ps => do
      let r ← sectionStep C vc clean expected p
      let rest ← sectionSteps C vc clean expected ps
      .ok (r.toList ++ rest)

/-- The document part of `verify`, entered only when the root proof is a
dict. -/
def docStep (C : CryptoPrim) (vc : Json) (expected : Option Json)
    (proofDoc : Json) : Except String Json := do
  let cleanDoc := stripEip712 vc
  let computedDocHash := keccak256Json C cleanDoc
  let domainDict := proofDoc.getKeyD "domain" defaultDomainJson
  let domain ← parseVerifyDomain domainDict
  let typedDoc := buildDocumentTypedData domain computedDocHash
  let recoveredDoc ← recoverJ C typedDoc (proofDoc.getKeyD "proofValue" (.str ""))
  let expectedDoc0 ← pyGet (pyOrEmptyObjOpt expected) "document"
  let expectedDoc := pyOrOpt (proofDoc.getKeyOpt "signer") expectedDoc0
  let okAddr :=
    if truthyOpt expectedDoc then
      pyLower recoveredDoc == pyLower (pyStr (expectedDoc.getD .null))
    else true
  let okDoc := okAddr && strEqPy "Eip712Signature2023" (proofDoc.getKeyOpt "type")
  .ok (.obj [("path", .str "/"), ("ok", .bool okDoc),
             ("recovered", .str recoveredDoc), ("expected", expectedDoc.getD .null)])

/-- `verify(vc, expected_addresses)`: the ordered result list, or the
propagated exception. -/
def verify (C : CryptoPrim) (vc : Json) (expected : Option Json := none) :
    Except String (List Json) := do
  let clean := stripEip712 vc
  let secResults ← sectionSteps C vc clean expected SECTION_PATHS
  let proofDocO ← pyGet vc "proof"
  let proofDoc := proofDocO.getD .null
  if proofDoc.isObj then do
    let r ← docStep C vc expected proofDoc
    .ok (secResults ++ [r])
  else
    .ok (secResults ++ [.obj [("path", .str "/"), ("ok", .bool false),
                              ("reason", .str "missing proof")]])

/- ### Order facts about the key comparison used by `sort_keys` -/

theorem charsLe_total : ∀ x y : List Char, charsLe x y = true ∨ charsLe y x = true := by
  intro x
  induction x with
  | nil => intro y; left; simp [charsLe]
  | cons c cs ih =>
      intro y
      cases y with
      | nil => right; simp [charsLe]
      | cons d ds =>
          by_cases h1 : c < d
          · left; simp [charsLe, h1]
          · by_cases h2 : d < c
            · right; simp [charsLe, h2]
            · rcases ih ds with h | h
              · left; simp [charsLe, h1, h2, h]
              · right; simp [charsLe, h1, h2, h]

theorem charsLe_antisymm : ∀ x y : List Char,
    charsLe x y = true → charsLe y x = true → x = y := by
  intro x
  induction x with
  | nil =>
      intro y _ hyx
      cases y with
      | nil => rfl
      | cons d ds => simp [charsLe] at hyx
  | cons c cs ih =>
      intro y hxy hyx
      cases y with
      | nil => simp [charsLe] at hxy
      | cons d ds =>
          by_cases h1 : c < d
          · simp [charsLe, h1, asymm h1] at hyx
          · by_cases h2 : d < c
            · simp [charsLe, h1, h2] at hxy
            · have hcd : c = d := le_antisymm (not_lt.mp h2) (not_lt.mp h1)
              subst hcd
              simp [charsLe, h1, h2] at hxy hyx
              rw [ih ds hxy hyx]

theorem charsLe_trans : ∀ x y z : List Char,
    charsLe x y = true → charsLe y z = true → charsLe x z = true := by
  intro x
  induction x with
  | nil => intro y z _ _; simp [charsLe]
  | cons c cs ih =>
      intro y z hxy hyz
      cases y with
      | nil => simp [charsLe] at hxy
      | cons d ds =>
          cases z with
          | nil => simp [charsLe] at hyz
          | cons e es =>
              by_cases h1 : c < d
              · by_cases h3 : d < e
                · simp [charsLe, lt_trans h1 h3]
                · by_cases h4 : e < d
                  · simp [charsLe, h3, h4] at hyz
                  · have : d = e := le_antisymm (not_lt.mp h4) (not_lt.mp h3)
                    subst this
                    simp [charsLe, h1]
              · by_cases h2 : d < c
                · simp [charsLe, h1, h2] at hxy
                · have hcd : c = d := le_antisymm (not_lt.mp h2) (not_lt.mp h1)
                  subst hcd
                  simp [charsLe, h1, h2] at hxy
                  by_cases h3 : c < e
                  · simp [charsLe, h3]
                  · by_cases h4 : e < c
                    · simp [charsLe, h3, h4] at hyz
                    · simp [charsLe, h3, h4] at hyz ⊢
                      exact ih ds es hxy hyz

theorem keyLe_total (a b : String) : keyLe a b = true ∨ keyLe b a = true :=
  charsLe_total a.data b.data

theorem keyLe_antisymm {a b : String} (h1 : keyLe a b = true) (h2 : keyLe b a = true) :
    a = b := by
  have := charsLe_antisymm a.data b.data h1 h2
  cases a; cases b; simp_all

theorem keyLe_trans {a b c : String} (h1 : keyLe a b = true) (h2 : keyLe b c = true) :
    keyLe a c = true :=
  charsLe_trans a.data b.data c.data h1 h2

theorem keyLe_of_not_keyLe {a b : String} (h : ¬ keyLe a b = true) : keyLe b a = true := by
  rcases keyLe_total a b with h' | h'
  · exact absurd h' h
  · exact h'

/-- Inserting two pairs with distinct keys commutes. -/
theorem insPair_comm (a b : String × String) (hab : a.1 ≠ b.1) :
    ∀ l, insPair a (insPair b l) = insPair b (insPair a l) := by
  intro l
  induction l with
  | nil =>
      by_cases h1 : keyLe a.1 b.1
      · have h2 : ¬ keyLe b.1 a.1 = true := fun h => hab (keyLe_antisymm h1 h)
        simp [insPair, h1, h2]
      · have h2 : keyLe b.1 a.1 = true := keyLe_of_not_keyLe h1
        simp [insPair, h1, h2]
  | cons y ys ih =>
      by_cases hby : keyLe b.1 y.1
      · by_cases hab' : keyLe a.1 b.1
        · have hay : keyLe a.1 y.1 = true := keyLe_trans hab' hby
          have hba : ¬ keyLe b.1 a.1 = true := fun h => hab (keyLe_antisymm hab' h)
          simp [insPair, hby, hab', hay, hba]
        · have hba : keyLe b.1 a.1 = true := keyLe_of_not_keyLe hab'
          by_cases hay : keyLe a.1 y.1
          · simp [insPair, hby, hab', hay, hba]
          · simp [insPair, hby, hab', hay, hba]
      · by_cases hay : keyLe a.1 y.1
        · have hba : ¬ keyLe b.1 a.1 = true := fun h => absurd (keyLe_trans h hay) hby
          simp [insPair, hby, hay, hba]
        · simp [insPair, hby, hay, ih]

/- ### Structural equality of JSON values up to dict key order

Two values are `StructEq` when they agree at every leaf and every dict holds
the same key/value associations, with any insertion order: dict reordering is
generated by adjacent transpositions of distinct-key entries, chained by
transitivity, with values compared recursively. -/

mutual

inductive StructEq : Json → Json → Prop where
  | null : StructEq .null .null
  | bool (b : Bool) : StructEq (.bool b) (.bool b)
  | num (n : Int) : StructEq (.num n) (.num n)
  | str (s : String) : StructEq (.str s) (.str s)
  | arr {xs ys : List Json} : StructEqArr xs ys → StructEq (.arr xs) (.arr ys)
  | obj {kvs lvs : List (String × Json)} : StructEqKvs kvs lvs → StructEq (.obj kvs) (.obj lvs)

inductive StructEqArr : List Json → List Json → Prop where
  | nil : StructEqArr [] []
  | cons {x y : Json} {xs ys : List Json} :
      StructEq x y → StructEqArr xs ys → StructEqArr (x :: xs) (y :: ys)

inductive StructEqKvs : List (String × Json) → List (String × Json) → Prop where
  | nil : StructEqKvs [] []
  | cons {k : String} {v w : Json} {kvs lvs : List (String × Json)} :
      StructEq v w → StructEqKvs kvs lvs → StructEqKvs ((k, v) :: kvs) ((k, w) :: lvs)
  | swap {k l : String} {v w : Json} {kvs : List (String × Json)} :
      k ≠ l → StructEqKvs ((k, v) :: (l, w) :: kvs) ((l, w) :: (k, v) :: kvs)
  | trans {a b c : List (String × Json)} :
      StructEqKvs a b → StructEqKvs b c → StructEqKvs a c

end

/-- Canonicalization maps structurally equal values to the same string
(simultaneous induction over the three mutual derivation forms). -/
theorem structEq_canon {a b : Json} (h : StructEq a b) :
    toCanonicalJson a = toCanonicalJson b :=
  @StructEq.rec
    (fun a b _ => toCanonicalJson a = toCanonicalJson b)
    (fun xs ys _ => canonArr xs = canonArr ys)
    (fun kvs lvs _ => sortPairs (canonPairs kvs) = sortPairs (canonPairs lvs))
    rfl
    (fun _ => rfl)
    (fun _ => rfl)
    (fun _ => rfl)
    (fun _ ih => by simp only [toCanonicalJson]; rw [ih])
    (fun _ ih => by simp only [toCanonicalJson]; rw [ih])
    rfl
    (fun _ _ ih1 ih2 => by simp only [canonArr]; rw [ih1, ih2])
    rfl
    (fun _ _ ih1 ih2 => by simp only [canonPairs, sortPairs]; rw [ih1, ih2])
    (fun hne => by simp only [canonPairs, sortPairs]; exact insPair_comm _ _ hne _)
    (fun _ _ ih1 ih2 => ih1.trans ih2)
    a b h

/- ### Association-list and `atKey` algebra -/

theorem lookupKey_mapFirst_same (k : String) (f : Json → Json) :
    ∀ l, lookupKey k (mapFirst k f l) = (lookupKey k l).map f := by
  intro l
  induction l with
  | nil => rfl
  | cons a rest ih =>
      obtain ⟨b, v⟩ := a
      by_cases h : b = k
      · simp [mapFirst, lookupKey, h]
      · simp [mapFirst, lookupKey, h, ih]

theorem lookupKey_mapFirst_ne (k k' : String) (f : Json → Json) (h : k' ≠ k) :
    ∀ l, lookupKey k (mapFirst k' f l) = lookupKey k l := by
  intro l
  induction l with
  | nil => rfl
  | cons a rest ih =>
      obtain ⟨b, v⟩ := a
      by_cases hb : b = k'
      · subst hb; simp [mapFirst, lookupKey, h, ih]
      · simp [mapFirst, lookupKey, hb, ih]

theorem eraseFirst_mapFirst_same (k : String) (f : Json → Json) :
    ∀ l, eraseFirst k (mapFirst k f l) = eraseFirst k l := by
  intro l
  induction l with
  | nil => rfl
  | cons a rest ih =>
      obtain ⟨b, v⟩ := a
      by_cases h : b = k
      · simp [mapFirst, eraseFirst, h]
      · simp [mapFirst, eraseFirst, h, ih]

theorem eraseFirst_mapFirst_ne (k k' : String) (f : Json → Json) (h : k' ≠ k) :
    ∀ l, eraseFirst k (mapFirst k' f l) = mapFirst k' f (eraseFirst k l) := by
  intro l
  induction l with
  | nil => rfl
  | cons a rest ih =>
      obtain ⟨b, v⟩ := a
      by_cases hb : b = k'
      · subst hb
        simp [mapFirst, eraseFirst, h, ih]
      · by_cases hk : b = k
        · simp [mapFirst, eraseFirst, hb, hk, Ne.symm h]
        · simp [mapFirst, eraseFirst, hb, hk, ih]

theorem mapFirst_mapFirst_same (k : String) (f g : Json → Json) :
    ∀ l, mapFirst k f (mapFirst k g l) = mapFirst k (fun v => f (g v)) l := by
  intro l
  induction l with
  | nil => rfl
  | cons a rest ih =>
      obtain ⟨b, v⟩ := a
      by_cases h : b = k
      · simp [mapFirst, h]
      · simp [mapFirst, h, ih]

theorem mapFirst_mapFirst_ne (k k' : String) (f g : Json → Json) (h : k ≠ k') :
    ∀ l, mapFirst k f (mapFirst k' g l) = mapFirst k' g (mapFirst k f l) := by
  intro l
  induction l with
  | nil => rfl
  | cons a rest ih =>
      obtain ⟨b, v⟩ := a
      by_cases hb : b = k
      · subst hb
        simp [mapFirst, h, Ne.symm h, ih]
      · by_cases hb' : b = k'
        · simp [mapFirst, hb, hb', Ne.symm h]
        · simp [mapFirst, hb, hb', ih]

theorem mapFirst_keys (k : String) (f : Json → Json) :
    ∀ l, (mapFirst k f l).map Prod.fst = l.map Prod.fst := by
  intro l
  induction l with
  | nil => rfl
  | cons a rest ih =>
      obtain ⟨b, v⟩ := a
      by_cases h : b = k
      · simp [mapFirst, h]
      · simp [mapFirst, h, ih]

theorem lookupKey_eraseFirst_ne (k k' : String) (h : k' ≠ k) :
    ∀ l, lookupKey k (eraseFirst k' l) = lookupKey k l := by
  intro l
  induction l with
  | nil => rfl
  | cons a rest ih =>
      obtain ⟨b, v⟩ := a
      by_cases hb : b = k'
      · subst hb; simp [eraseFirst, lookupKey, h]
      · simp [eraseFirst, lookupKey, hb, ih]

theorem atKey_isObj (k : String) (f : Json → Json) (j : Json) :
    (atKey k f j).isObj = j.isObj := by
  cases j <;> rfl

theorem atKey_atKey_same (k : String) (f g : Json → Json) (j : Json) :
    atKey k f (atKey k g j) = atKey k (fun v => f (g v)) j := by
  cases j <;> simp [atKey, mapFirst_mapFirst_same]

theorem atKey_atKey_ne (k k' : String) (f g : Json → Json) (h : k ≠ k') (j : Json) :
    atKey k f (atKey k' g j) = atKey k' g (atKey k f j) := by
  cases j <;> simp [atKey, mapFirst_mapFirst_ne _ _ _ _ h]

theorem getKeyOpt_atKey_same (k : String) (f : Json → Json) (j : Json) :
    (atKey k f j).getKeyOpt k = (j.getKeyOpt k).map f := by
  cases j <;> simp [atKey, Json.getKeyOpt, lookupKey_mapFirst_same]

theorem getKeyOpt_atKey_ne (k k' : String) (f : Json → Json) (h : k' ≠ k) (j : Json) :
    (atKey k' f j).getKeyOpt k = j.getKeyOpt k := by
  cases j <;> simp [atKey, Json.getKeyOpt, lookupKey_mapFirst_ne _ _ _ h]

theorem dropSProof_atKey_sProof (g : Json → Json) (j : Json) :
    dropSProof (atKey "sProof" g j) = dropSProof j := by
  cases j <;> simp [atKey, dropSProof, eraseFirst_mapFirst_same]

theorem dropSProof_atKey_ne (k : String) (g : Json → Json) (h : k ≠ "sProof") (j : Json) :
    dropSProof (atKey k g j) = atKey k g (dropSProof j) := by
  cases j <;> simp [atKey, dropSProof, eraseFirst_mapFirst_ne _ _ _ h]

theorem removeProofRoot_atKey_proof (g : Json → Json) (j : Json) :
    removeProofRoot (atKey "proof" g j) = removeProofRoot j := by
  cases j <;> simp [atKey, removeProofRoot, eraseFirst_mapFirst_same]

theorem removeProofRoot_atKey_ne (k : String) (g : Json → Json) (h : k ≠ "proof") (j : Json) :
    removeProofRoot (atKey k g j) = atKey k g (removeProofRoot j) := by
  cases j <;> simp [atKey, removeProofRoot, eraseFirst_mapFirst_ne _ _ _ h]

theorem getKeyOpt_removeProofRoot_ne (k : String) (h : k ≠ "proof") (j : Json) :
    (removeProofRoot j).getKeyOpt k = j.getKeyOpt k := by
  cases j <;> simp [removeProofRoot, Json.getKeyOpt, lookupKey_eraseFirst_ne _ _ (Ne.symm h)]

/-- Resolution of a key list, decomposed one key at a time. -/
theorem getParts_cons (j : Json) (p : String) (ps : List String) :
    getParts j (p :: ps) =
      (match j.getKeyOpt p with
       | some v => getParts v ps
       | none => .null) := by
  cases j <;> simp [getParts, Json.getKeyOpt]

theorem getParts_atKey_same (p : String) (f : Json → Json) (j : Json) (ps : List String) :
    getParts (atKey p f j) (p :: ps) =
      (match j.getKeyOpt p with
       | some v => getParts (f v) ps
       | none => .null) := by
  rw [getParts_cons, getKeyOpt_atKey_same]
  cases j.getKeyOpt p <;> rfl

theorem getParts_atKey_ne (p q : String) (f : Json → Json) (h : q ≠ p) (j : Json)
    (ps : List String) :
    getParts (atKey q f j) (p :: ps) = getParts j (p :: ps) := by
  rw [getParts_cons, getParts_cons, getKeyOpt_atKey_ne _ _ _ h]

theorem getParts_removeProofRoot (p : String) (h : p ≠ "proof") (j : Json)
    (ps : List String) :
    getParts (removeProofRoot j) (p :: ps) = getParts j (p :: ps) := by
  rw [getParts_cons, getParts_cons, getKeyOpt_removeProofRoot_ne _ h]

/- ### `setIfPresent` lemmas -/

theorem setIfPresent_isObj (j : Json) (k : String) (v : Json) :
    (j.setIfPresent k v).isObj = j.isObj := by
  cases j with
  | obj kvs =>
      by_cases h : (lookupKey k kvs).isSome <;> simp [Json.setIfPresent, h, Json.isObj]
  | _ => rfl

theorem setIfPresent_getKeyOpt_present (j : Json) (k : String) (v : Json)
    (h : (j.getKeyOpt k).isSome) : (j.setIfPresent k v).getKeyOpt k = some v := by
  cases j with
  | obj kvs =>
      simp only [Json.getKeyOpt] at h
      obtain ⟨w, hw⟩ := Option.isSome_iff_exists.mp h
      have hset : Json.setIfPresent (.obj kvs) k v = .obj (mapFirst k (fun _ => v) kvs) := by
        simp [Json.setIfPresent, hw]
      rw [hset]
      show lookupKey k (mapFirst k (fun _ => v) kvs) = some v
      rw [lookupKey_mapFirst_same, hw]
      rfl
  | null => simp [Json.getKeyOpt] at h
  | bool b => simp [Json.getKeyOpt] at h
  | num n => simp [Json.getKeyOpt] at h
  | str t => simp [Json.getKeyOpt] at h
  | arr xs => simp [Json.getKeyOpt] at h

theorem setIfPresent_getKeyOpt_ne (j : Json) (k k' : String) (v : Json) (h : k' ≠ k) :
    (j.setIfPresent k' v).getKeyOpt k = j.getKeyOpt k := by
  cases j with
  | obj kvs =>
      by_cases hp : (lookupKey k' kvs).isSome
      · simp [Json.setIfPresent, hp, Json.getKeyOpt, lookupKey_mapFirst_ne _ _ _ h]
      · simp [Json.setIfPresent, hp, Json.getKeyOpt]
  | _ => rfl

theorem setIfPresent_keys (j : Json) (k : String) (v : Json) :
    ∀ kvs, j = .obj kvs → ∃ kvs', j.setIfPresent k v = .obj kvs' ∧
      kvs'.map Prod.fst = kvs.map Prod.fst := by
  intro kvs hj
  subst hj
  by_cases hp : (lookupKey k kvs).isSome
  · refine ⟨mapFirst k (fun _ => v) kvs, ?_, mapFirst_keys _ _ _⟩
    simp [Json.setIfPresent, hp]
  · exact ⟨kvs, by simp [Json.setIfPresent, hp], rfl⟩

/- ### The strip and update operations in `atKey` form -/

theorem updateAt_nil_fun (f : Json → Json) : updateAt [] f = f :=
  funext (fun _ => rfl)

theorem updateAt_two (p q : String) (f : Json → Json) (doc : Json) :
    updateAt [p, q] f doc = atKey p (atKey q f) doc := by
  show atKey p (updateAt [q] f) doc = atKey p (atKey q f) doc
  congr 1

/-- `_strip_eip712`, written as three per-section strips under
`credentialSubject` followed by the root strip. -/
theorem stripEip712_eq (vc : Json) :
    stripEip712 vc =
      removeProofRoot
        (atKey "credentialSubject" (atKey "custody" dropSProof)
          (atKey "credentialSubject" (atKey "compliance" dropSProof)
            (atKey "credentialSubject" (atKey "identity" dropSProof) vc))) := by
  show removeProofRoot
      (updateAt (pathParts "/credentialSubject/custody") dropSProof
        (updateAt (pathParts "/credentialSubject/compliance") dropSProof
          (updateAt (pathParts "/credentialSubject/identity") dropSProof vc))) = _
  rw [show pathParts "/credentialSubject/identity" = ["credentialSubject", "identity"] from rfl,
      show pathParts "/credentialSubject/compliance" = ["credentialSubject", "compliance"] from rfl,
      show pathParts "/credentialSubject/custody" = ["credentialSubject", "custody"] from rfl,
      updateAt_two, updateAt_two, updateAt_two]

/-- A per-section strip absorbs a proof-template update at the same section. -/
theorem sectionStrip_absorb (n : String) (g : Json → Json) (doc : Json) :
    atKey "credentialSubject" (atKey n dropSProof)
        (atKey "credentialSubject" (atKey n (atKey "sProof" g)) doc) =
      atKey "credentialSubject" (atKey n dropSProof) doc := by
  rw [atKey_atKey_same]
  congr 1
  funext v
  rw [atKey_atKey_same]
  congr 1
  funext w
  exact dropSProof_atKey_sProof g w

/-- A per-section strip commutes with a proof-template update at a different
section. -/
theorem sectionStrip_comm (n m : String) (h : m ≠ n) (g : Json → Json) (doc : Json) :
    atKey "credentialSubject" (atKey m dropSProof)
        (atKey "credentialSubject" (atKey n (atKey "sProof" g)) doc) =
      atKey "credentialSubject" (atKey n (atKey "sProof" g))
        (atKey "credentialSubject" (atKey m dropSProof) doc) := by
  rw [atKey_atKey_same, atKey_atKey_same]
  congr 1
  funext v
  exact atKey_atKey_ne _ _ _ _ h v

/-- A per-section strip commutes with a root-proof update. -/
theorem sectionStrip_comm_proof (m : String) (g : Json → Json) (doc : Json) :
    atKey "credentialSubject" (atKey m dropSProof) (atKey "proof" g doc) =
      atKey "proof" g (atKey "credentialSubject" (atKey m dropSProof) doc) :=
  atKey_atKey_ne _ _ _ _ (by decide) doc

/-- Stripping erases the effect of any section proof update (`issue` writes
only inside `sProof` objects, which stripping removes whole). -/
theorem stripEip712_updateSection (p : String) (hp : p ∈ SECTION_PATHS)
    (hash sig : String) (doc : Json) :
    stripEip712 (updateAt (pathParts p) (updateSectionProof hash sig) doc) =
      stripEip712 doc := by
  have hu : ∀ d, updateAt (pathParts p) (updateSectionProof hash sig) d =
      updateAt (pathParts p) (atKey "sProof" (sectionProofWriter hash sig)) d := by
    intro d; rfl
  simp only [SECTION_PATHS, List.mem_cons, List.not_mem_nil, or_false] at hp
  rcases hp with rfl | rfl | rfl
  · rw [hu, stripEip712_eq, stripEip712_eq,
      show pathParts "/credentialSubject/identity" = ["credentialSubject", "identity"] from rfl,
      updateAt_two, sectionStrip_absorb]
  · rw [hu, stripEip712_eq, stripEip712_eq,
      show pathParts "/credentialSubject/compliance" = ["credentialSubject", "compliance"] from rfl,
      updateAt_two, sectionStrip_comm _ _ (by decide), sectionStrip_absorb]
  · rw [hu, stripEip712_eq, stripEip712_eq,
      show pathParts "/credentialSubject/custody" = ["credentialSubject", "custody"] from rfl,
      updateAt_two, sectionStrip_comm _ _ (by decide), sectionStrip_comm _ _ (by decide),
      sectionStrip_absorb]

/-- Stripping erases the effect of the root proof update. -/
theorem stripEip712_updateTopProof (sig : String) (doc : Json) :
    stripEip712 (updateTopProof sig doc) = stripEip712 doc := by
  show stripEip712 (atKey "proof" (topProofWriter sig) doc) = stripEip712 doc
  rw [stripEip712_eq, stripEip712_eq, sectionStrip_comm_proof, sectionStrip_comm_proof,
    sectionStrip_comm_proof, removeProofRoot_atKey_proof]

/- ### Reading a document through section updates -/

theorem getParts_nil (j : Json) : getParts j [] = j := by
  cases j <;> rfl

theorem getParts_sectionUpd_ne (n m : String) (h : m ≠ n) (U : Json → Json) (doc : Json) :
    getParts (atKey "credentialSubject" (atKey n U) doc) ["credentialSubject", m] =
      getParts doc ["credentialSubject", m] := by
  rw [getParts_atKey_same, getParts_cons]
  cases doc.getKeyOpt "credentialSubject" with
  | none => rfl
  | some v => exact getParts_atKey_ne m n U (Ne.symm h) v []

theorem getParts_sectionUpd_same (n : String) (U : Json → Json) (doc : Json) :
    getParts (atKey "credentialSubject" (atKey n U) doc) ["credentialSubject", n] =
      (match doc.getKeyOpt "credentialSubject" with
       | some v =>
          (match v.getKeyOpt n with
           | some w => U w
           | none => .null)
       | none => .null) := by
  rw [getParts_atKey_same]
  cases doc.getKeyOpt "credentialSubject" with
  | none => rfl
  | some v =>
      show getParts (atKey n U v) [n] =
        (match v.getKeyOpt n with
         | some w => U w
         | none => .null)
      rw [getParts_atKey_same]
      cases v.getKeyOpt n with
      | none => rfl
      | some w => exact getParts_nil (U w)

theorem getParts_two (doc : Json) (p q : String) :
    getParts doc [p, q] =
      (match doc.getKeyOpt p with
       | some v =>
          (match v.getKeyOpt q with
           | some w => w
           | none => .null)
       | none => .null) := by
  rw [getParts_cons]
  cases doc.getKeyOpt p with
  | none => rfl
  | some v =>
      show getParts v [q] =
        (match v.getKeyOpt q with
         | some w => w
         | none => .null)
      rw [getParts_cons]
      cases v.getKeyOpt q with
      | none => rfl
      | some w => exact getParts_nil w

/-- A section update preserves presence (dict-ness) at every section path. -/
theorem isObj_sectionUpd (n m : String) (g : Json → Json) (doc : Json) :
    (getParts (atKey "credentialSubject" (atKey n (atKey "sProof" g)) doc)
        ["credentialSubject", m]).isObj =
      (getParts doc ["credentialSubject", m]).isObj := by
  by_cases h : m = n
  · subst h
    rw [getParts_sectionUpd_same, getParts_two]
    cases doc.getKeyOpt "credentialSubject" with
    | none => rfl
    | some v =>
        show (match v.getKeyOpt m with
              | some w => atKey "sProof" g w
              | none => Json.null).isObj =
          (match v.getKeyOpt m with
           | some w => w
           | none => Json.null).isObj
        cases v.getKeyOpt m with
        | none => rfl
        | some w => exact atKey_isObj _ _ w
  · rw [getParts_sectionUpd_ne _ _ h]

/-- Reading the updated section back when it is present. -/
theorem getParts_sectionUpd_read (n : String) (U : Json → Json) (doc : Json)
    (h : (getParts doc ["credentialSubject", n]).isObj) :
    getParts (atKey "credentialSubject" (atKey n U) doc) ["credentialSubject", n] =
      U (getParts doc ["credentialSubject", n]) := by
  rw [getParts_sectionUpd_same]
  rw [getParts_two] at h
  rw [getParts_two]
  cases hcs : doc.getKeyOpt "credentialSubject" with
  | none => rw [hcs] at h; exact absurd h (by simp [Json.isObj])
  | some v =>
      rw [hcs] at h
      have h2 : (match v.getKeyOpt n with
                 | some w => w
                 | none => Json.null).isObj = true := h
      show (match v.getKeyOpt n with
            | some w => U w
            | none => Json.null) =
        U (match v.getKeyOpt n with
           | some w => w
           | none => Json.null)
      cases hn : v.getKeyOpt n with
      | none => rw [hn] at h2; exact absurd h2 (by simp [Json.isObj])
      | some w => rfl

/-- Reading a section through the root proof update. -/
theorem getParts_topUpd (sig : String) (doc : Json) (m : String) :
    getParts (updateTopProof sig doc) ["credentialSubject", m] =
      getParts doc ["credentialSubject", m] := by
  show getParts (atKey "proof" (topProofWriter sig) doc) _ = _
  exact getParts_atKey_ne _ _ _ (by decide) doc _

/-- Reading the root proof through a section update. -/
theorem getKeyOpt_proof_sectionUpd (n : String) (g : Json → Json) (doc : Json) :
    (atKey "credentialSubject" (atKey n g) doc).getKeyOpt "proof" =
      doc.getKeyOpt "proof" :=
  getKeyOpt_atKey_ne _ _ _ (by decide) doc

/-- What stripping leaves at a present section: the section with its `sProof`
dropped. -/
theorem getParts_strip (vc : Json) (n : String)
    (hn : n = "identity" ∨ n = "compliance" ∨ n = "custody")
    (h : (getParts vc ["credentialSubject", n]).isObj) :
    getParts (stripEip712 vc) ["credentialSubject", n] =
      dropSProof (getParts vc ["credentialSubject", n]) := by
  rw [stripEip712_eq]
  rw [getParts_removeProofRoot _ (by decide), atKey_atKey_same, atKey_atKey_same,
    getParts_atKey_same]
  rw [getParts_two] at h
  rw [getParts_two]
  cases hcs : vc.getKeyOpt "credentialSubject" with
  | none => rw [hcs] at h; exact absurd h (by simp [Json.isObj])
  | some v =>
      rw [hcs] at h
      have h2 : (match v.getKeyOpt n with
                 | some w => w
                 | none => Json.null).isObj = true := h
      show getParts
          (atKey "custody" dropSProof
            (atKey "compliance" dropSProof (atKey "identity" dropSProof v))) [n] =
        dropSProof (match v.getKeyOpt n with
          | some w => w
          | none => Json.null)
      cases hv : v.getKeyOpt n with
      | none => rw [hv] at h2; exact absurd h2 (by simp [Json.isObj])
      | some w =>
          rw [getParts_cons]
          rcases hn with rfl | rfl | rfl
          · rw [getKeyOpt_atKey_ne _ _ _ (by decide), getKeyOpt_atKey_ne _ _ _ (by decide),
              getKeyOpt_atKey_same, hv]
            exact getParts_nil _
          · rw [getKeyOpt_atKey_ne _ _ _ (by decide), getKeyOpt_atKey_same,
              getKeyOpt_atKey_ne _ _ _ (by decide), hv]
            exact getParts_nil _
          · rw [getKeyOpt_atKey_same, getKeyOpt_atKey_ne _ _ _ (by decide),
              getKeyOpt_atKey_ne _ _ _ (by decide), hv]
            exact getParts_nil _

/- ### Issuance characterization -/

/-- The three concrete section paths. -/
theorem sectionPath_cases {p : String} (hp : p ∈ SECTION_PATHS) :
    p = "/credentialSubject/identity" ∨ p = "/credentialSubject/compliance" ∨
      p = "/credentialSubject/custody" := by
  simpa [SECTION_PATHS] using hp

/-- Section update at `[credentialSubject, n]`, observed at any
`[credentialSubject, m]`, preserves dict-ness. -/
theorem updSection_isObj_nm (n m : String) (hash sig : String) (d : Json) :
    (getParts (updateAt ["credentialSubject", n] (updateSectionProof hash sig) d)
        ["credentialSubject", m]).isObj =
      (getParts d ["credentialSubject", m]).isObj := by
  rw [updateAt_two]
  exact isObj_sectionUpd n m (sectionProofWriter hash sig) d

/-- A section proof update preserves presence at every section path. -/
theorem isObj_updSection_at (p q : String) (hp : p ∈ SECTION_PATHS)
    (hq : q ∈ SECTION_PATHS) (hash sig : String) (d : Json) :
    (getByPath (updateAt (pathParts p) (updateSectionProof hash sig) d) q).isObj =
      (getByPath d q).isObj := by
  rcases sectionPath_cases hp with rfl | rfl | rfl <;>
    rcases sectionPath_cases hq with rfl | rfl | rfl <;>
    exact updSection_isObj_nm _ _ hash sig d

/-- The signature a successful signing call produces. -/
def sigOf (C : CryptoPrim) (k t : Json) : String := ((C.sign k t).getD ("", "")).1

/-- Hash of the clean content a section path resolves to. -/
def sectionHashAt (C : CryptoPrim) (clean : Json) (p : String) : String :=
  keccak256Json C (pyOrEmptyObj (getByPath clean p))

/-- The document effect of the per-section loop of `issue`, assuming every
executed signing succeeds. -/
def applyIssue (C : CryptoPrim) (domain : Eip712Domain) (clean : Json) :
    List (String × Json) → Json → Json
  | [], issued => issued
  | (p, k) :: rest, issued =>
      if (getByPath issued p).isObj then
        applyIssue C domain clean rest
          (updateAt (pathParts p)
            (updateSectionProof (sectionHashAt C clean p)
              (sigOf C k (buildSectionTypedData domain p (sectionHashAt C clean p)))) issued)
      else applyIssue C domain clean rest issued

/-- The metadata records of the per-section loop. -/
def issueMetaFor (C : CryptoPrim) (domain : Eip712Domain) (clean : Json) :
    List (String × Json) → Json → List Json
  | [], _ => []
  | (p, k) :: rest, issued =>
      if (getByPath issued p).isObj then
        Json.obj [("path", .str p), ("sectionHash", .str (sectionHashAt C clean p))] ::
          issueMetaFor C domain clean rest
            (updateAt (pathParts p)
              (updateSectionProof (sectionHashAt C clean p)
                (sigOf C k (buildSectionTypedData domain p (sectionHashAt C clean p)))) issued)
      else issueMetaFor C domain clean rest issued

/-- Characterization of the per-section loop when the section keys can sign:
it succeeds, applies exactly the per-section proof updates, and appends one
metadata record per present section. -/
theorem issueSections_run (C : CryptoPrim) (domain : Eip712Domain) (clean : Json) :
    ∀ L : List (String × Json), (∀ pk ∈ L, pk.1 ∈ SECTION_PATHS) →
    ∀ (issued : Json) (meta : List Json),
    (∀ pk ∈ L, (getByPath issued pk.1).isObj = true → ∀ t, (C.sign pk.2 t).isSome = true) →
    issueSections C domain clean L issued meta =
      .ok (applyIssue C domain clean L issued,
           meta ++ issueMetaFor C domain clean L issued) := by
  intro L
  induction L with
  | nil =>
      intro _ issued meta _
      simp [issueSections, applyIssue, issueMetaFor]
  | cons pk rest ih =>
      obtain ⟨p, k⟩ := pk
      intro hL issued meta hsign
      by_cases hpres : (getByPath issued p).isObj = true
      · have hs : ∀ t, (C.sign k t).isSome = true :=
          hsign (p, k) (List.mem_cons_self _ _) hpres
        set hash := sectionHashAt C clean p with hhash
        set typed := buildSectionTypedData domain p hash with htyped
        cases hsig : C.sign k typed with
        | none => exact absurd (hsig ▸ hs typed) (by simp)
        | some pr =>
            obtain ⟨sg, ad⟩ := pr
            have hsg : sigOf C k typed = sg := by simp [sigOf, hsig]
            have step : issueSections C domain clean ((p, k) :: rest) issued meta =
                issueSections C domain clean rest
                  (updateAt (pathParts p) (updateSectionProof hash sg) issued)
                  (meta ++ [Json.obj [("path", .str p), ("sectionHash", .str hash)]]) := by
              simp only [issueSections, hpres, if_true, hhash, htyped]
              rw [show keccak256Json C (pyOrEmptyObj (getByPath clean p)) = hash from rfl]
              rw [hsig]
            rw [step]
            have hrest := ih (fun q hq => hL q (List.mem_cons_of_mem _ hq))
              (updateAt (pathParts p) (updateSectionProof hash sg) issued)
              (meta ++ [Json.obj [("path", .str p), ("sectionHash", .str hash)]])
              (fun q hq hq2 t => by
                refine hsign q (List.mem_cons_of_mem _ hq) ?_ t
                rwa [isObj_updSection_at p q.1 (hL (p, k) (List.mem_cons_self _ _))
                  (hL q (List.mem_cons_of_mem _ hq)) hash sg issued] at hq2)
            rw [hrest]
            have happ : applyIssue C domain clean ((p, k) :: rest) issued =
                applyIssue C domain clean rest
                  (updateAt (pathParts p) (updateSectionProof hash sg) issued) := by
              simp only [applyIssue, hpres, if_true, hhash, hsg, htyped]
            have hmeta : issueMetaFor C domain clean ((p, k) :: rest) issued =
                Json.obj [("path", .str p), ("sectionHash", .str hash)] ::
                  issueMetaFor C domain clean rest
                    (updateAt (pathParts p) (updateSectionProof hash sg) issued) := by
              simp only [issueMetaFor, hpres, if_true, hhash, hsg, htyped]
            rw [happ, hmeta]
            simp
      · have step : issueSections C domain clean ((p, k) :: rest) issued meta =
            issueSections C domain clean rest issued meta := by
          simp only [issueSections, hpres, if_false, Bool.false_eq_true]
        have happ : applyIssue C domain clean ((p, k) :: rest) issued =
            applyIssue C domain clean rest issued := by
          simp only [applyIssue, hpres, if_false, Bool.false_eq_true]
        have hmeta : issueMetaFor C domain clean ((p, k) :: rest) issued =
            issueMetaFor C domain clean rest issued := by
          simp only [issueMetaFor, hpres, if_false, Bool.false_eq_true]
        rw [step, happ, hmeta]
        exact ih (fun q hq => hL q (List.mem_cons_of_mem _ hq)) issued meta
          (fun q hq => hsign q (List.mem_cons_of_mem _ hq))

/-- A successful run of the per-section loop is exactly the `applyIssue` /
`issueMetaFor` computation (each executed signing returned the `sigOf`
value). -/
theorem issueSections_ok_char (C : CryptoPrim) (domain : Eip712Domain) (clean : Json) :
    ∀ (L : List (String × Json)) (issued : Json) (meta : List Json) (i2 : Json)
      (m2 : List Json),
    issueSections C domain clean L issued meta = .ok (i2, m2) →
    i2 = applyIssue C domain clean L issued ∧
      m2 = meta ++ issueMetaFor C domain clean L issued := by
  intro L
  induction L with
  | nil =>
      intro issued meta i2 m2 h
      simp only [issueSections, Except.ok.injEq, Prod.mk.injEq] at h
      simp [applyIssue, issueMetaFor, h.1.symm, h.2.symm]
  | cons pk rest ih =>
      obtain ⟨p, k⟩ := pk
      intro issued meta i2 m2 h
      by_cases hpres : (getByPath issued p).isObj = true
      · rw [show issueSections C domain clean ((p, k) :: rest) issued meta =
            (match C.sign k (buildSectionTypedData domain p
                (keccak256Json C (pyOrEmptyObj (getByPath clean p)))) with
             | none => .error "SigningError"
             | some (signature, _) =>
                issueSections C domain clean rest
                  (updateAt (pathParts p)
                    (updateSectionProof (keccak256Json C (pyOrEmptyObj (getByPath clean p)))
                      signature) issued)
                  (meta ++ [Json.obj [("path", .str p),
                    ("sectionHash",
                      .str (keccak256Json C (pyOrEmptyObj (getByPath clean p))))]]))
            from by simp only [issueSections, hpres, if_true]] at h
        cases hsig : C.sign k (buildSectionTypedData domain p
            (keccak256Json C (pyOrEmptyObj (getByPath clean p)))) with
        | none => rw [hsig] at h; exact absurd h (by simp)
        | some pr =>
            obtain ⟨sg, ad⟩ := pr
            rw [hsig] at h
            have hrec := ih _ _ _ _ h
            have hsg : sigOf C k (buildSectionTypedData domain p
                (keccak256Json C (pyOrEmptyObj (getByPath clean p)))) = sg := by
              simp [sigOf, hsig]
            constructor
            · rw [hrec.1]
              simp only [applyIssue, hpres, if_true, sectionHashAt, hsg]
            · rw [hrec.2]
              simp only [issueMetaFor, hpres, if_true, sectionHashAt, hsg]
              simp
      · rw [show issueSections C domain clean ((p, k) :: rest) issued meta =
            issueSections C domain clean rest issued meta
            from by simp only [issueSections, hpres, if_false, Bool.false_eq_true]] at h
        have hrec := ih _ _ _ _ h
        constructor
        · rw [hrec.1]
          simp only [applyIssue, hpres, if_false, Bool.false_eq_true]
        · rw [hrec.2]
          simp only [issueMetaFor, hpres, if_false, Bool.false_eq_true]

/-- Stripping is invariant under the whole per-section loop effect. -/
theorem applyIssue_strip (C : CryptoPrim) (domain : Eip712Domain) (clean : Json) :
    ∀ L : List (String × Json), (∀ pk ∈ L, pk.1 ∈ SECTION_PATHS) →
    ∀ issued : Json,
    stripEip712 (applyIssue C domain clean L issued) = stripEip712 issued := by
  intro L
  induction L with
  | nil => intro _ issued; rfl
  | cons pk rest ih =>
      obtain ⟨p, k⟩ := pk
      intro hL issued
      by_cases hpres : (getByPath issued p).isObj = true
      · rw [show applyIssue C domain clean ((p, k) :: rest) issued =
            applyIssue C domain clean rest
              (updateAt (pathParts p)
                (updateSectionProof (sectionHashAt C clean p)
                  (sigOf C k (buildSectionTypedData domain p (sectionHashAt C clean p))))
                issued)
            from by simp only [applyIssue, hpres, if_true]]
        rw [ih (fun q hq => hL q (List.mem_cons_of_mem _ hq))]
        exact stripEip712_updateSection p (hL (p, k) (List.mem_cons_self _ _)) _ _ issued
      · rw [show applyIssue C domain clean ((p, k) :: rest) issued =
            applyIssue C domain clean rest issued
            from by simp only [applyIssue, hpres, if_false, Bool.false_eq_true]]
        exact ih (fun q hq => hL q (List.mem_cons_of_mem _ hq)) issued

/-- Presence at the section paths is invariant under the loop effect. -/
theorem applyIssue_isObj (C : CryptoPrim) (domain : Eip712Domain) (clean : Json) :
    ∀ L : List (String × Json), (∀ pk ∈ L, pk.1 ∈ SECTION_PATHS) →
    ∀ issued : Json, ∀ q ∈ SECTION_PATHS,
    (getByPath (applyIssue C domain clean L issued) q).isObj =
      (getByPath issued q).isObj := by
  intro L
  induction L with
  | nil => intro _ issued q _; rfl
  | cons pk rest ih =>
      obtain ⟨p, k⟩ := pk
      intro hL issued q hq
      by_cases hpres : (getByPath issued p).isObj = true
      · rw [show applyIssue C domain clean ((p, k) :: rest) issued =
            applyIssue C domain clean rest
              (updateAt (pathParts p)
                (updateSectionProof (sectionHashAt C clean p)
                  (sigOf C k (buildSectionTypedData domain p (sectionHashAt C clean p))))
                issued)
            from by simp only [applyIssue, hpres, if_true]]
        rw [ih (fun r hr => hL r (List.mem_cons_of_mem _ hr)) _ q hq]
        exact isObj_updSection_at p q (hL (p, k) (List.mem_cons_self _ _)) hq _ _ issued
      · rw [show applyIssue C domain clean ((p, k) :: rest) issued =
            applyIssue C domain clean rest issued
            from by simp only [applyIssue, hpres, if_false, Bool.false_eq_true]]
        exact ih (fun r hr => hL r (List.mem_cons_of_mem _ hr)) issued q hq

/-- Bind on `Except` at a success value. -/
theorem exceptBind_ok {α β : Type} (a : α) (f : α → Except String β) :
    (Except.ok a >>= f) = f a := rfl

/-- Bind on `Except` at an error value. -/
theorem exceptBind_err {α β : Type} (e : String) (f : α → Except String β) :
    ((Except.error e : Except String α) >>= f) = Except.error e := rfl

/-- Inversion of a successful `issue` run into its intermediate steps. -/
theorem issue_ok_elim {C : CryptoPrim} {vc keysCfg : Json} {vctr : String}
    {d : Json} {m : List Json} (h : issue C vc keysCfg vctr = .ok (d, m)) :
    ∃ (domainCfg : Json) (domain : Eip712Domain) (keys : Json)
      (oid ocomp ocust odoc : Option Json) (i2 : Json) (meta : List Json)
      (sigdoc addr : String),
      pyGetD keysCfg "domain" (.obj []) = .ok domainCfg ∧
      resolveDomain domainCfg vctr = .ok domain ∧
      pyGetD keysCfg "keys" (.obj []) = .ok keys ∧
      pyGet keys "identity" = .ok oid ∧
      pyGet keys "compliance" = .ok ocomp ∧
      pyGet keys "custody" = .ok ocust ∧
      pyGet keys "document" = .ok odoc ∧
      issueSections C domain (stripEip712 vc)
        [("/credentialSubject/identity", oid.getD .null),
         ("/credentialSubject/compliance", ocomp.getD .null),
         ("/credentialSubject/custody", ocust.getD .null)] vc [] = .ok (i2, meta) ∧
      C.sign (odoc.getD .null)
        (buildDocumentTypedData domain (keccak256Json C (stripEip712 i2))) =
          some (sigdoc, addr) ∧
      d = updateTopProof sigdoc i2 ∧
      m = meta ++ [Json.obj [("path", .str "/"),
        ("documentHash", .str (keccak256Json C (stripEip712 i2)))]] := by
  unfold issue at h
  cases h1 : pyGetD keysCfg "domain" (.obj []) with
  | error e => rw [h1, exceptBind_err] at h; exact Except.noConfusion h
  | ok domainCfg =>
  rw [h1] at h
  simp only [exceptBind_ok] at h
  cases h2 : resolveDomain domainCfg vctr with
  | error e => rw [h2, exceptBind_err] at h; exact Except.noConfusion h
  | ok domain =>
  rw [h2] at h
  simp only [exceptBind_ok] at h
  cases h3 : pyGetD keysCfg "keys" (.obj []) with
  | error e => rw [h3, exceptBind_err] at h; exact Except.noConfusion h
  | ok keys =>
  rw [h3] at h
  simp only [exceptBind_ok] at h
  cases h4 : pyGet keys "identity" with
  | error e => rw [h4, exceptBind_err] at h; exact Except.noConfusion h
  | ok oid =>
  rw [h4] at h
  simp only [exceptBind_ok] at h
  cases h5 : pyGet keys "compliance" with
  | error e => rw [h5, exceptBind_err] at h; exact Except.noConfusion h
  | ok ocomp =>
  rw [h5] at h
  simp only [exceptBind_ok] at h
  cases h6 : pyGet keys "custody" with
  | error e => rw [h6, exceptBind_err] at h; exact Except.noConfusion h
  | ok ocust =>
  rw [h6] at h
  simp only [exceptBind_ok] at h
  cases h7 : pyGet keys "document" with
  | error e => rw [h7, exceptBind_err] at h; exact Except.noConfusion h
  | ok odoc =>
  rw [h7] at h
  simp only [exceptBind_ok] at h
  cases h8 : issueSections C domain (stripEip712 vc)
      [("/credentialSubject/identity", oid.getD .null),
       ("/credentialSubject/compliance", ocomp.getD .null),
       ("/credentialSubject/custody", ocust.getD .null)] vc [] with
  | error e => rw [h8, exceptBind_err] at h; exact Except.noConfusion h
  | ok pr =>
  obtain ⟨i2, meta⟩ := pr
  rw [h8] at h
  simp only [exceptBind_ok] at h
  cases h9 : C.sign (odoc.getD .null)
      (buildDocumentTypedData domain (keccak256Json C (stripEip712 i2))) with
  | none => rw [h9] at h; exact Except.noConfusion h
  | some pr2 =>
  obtain ⟨sigdoc, addr⟩ := pr2
  rw [h9] at h
  simp only [Except.ok.injEq, Prod.mk.injEq] at h
  exact ⟨domainCfg, domain, keys, oid, ocomp, ocust, odoc, i2, meta, sigdoc, addr,
    rfl, h2, rfl, h4, h5, h6, h7, h8, h9, h.1.symm, h.2.symm⟩

/- ### A concrete signing/recovery primitive

Faithful to the eth-account boundary behaviour the verifier relies on: a
signature is bound to the exact typed message; recovering it against a
different message succeeds but yields a different signer; a string that is
not signature-shaped (for instance the empty string) makes recovery raise
(`none`), as `Account.recover_message` does for byte strings that are not
65-byte signatures. -/

/-- Recovery: accepts `sig:<key>:<canonical typed data>`; on a message
mismatch it returns a bogus signer, on a malformed signature it fails. -/
def modelRecover (t : Json) (s : String) : Option String :=
  if s.data.take 4 = ['s', 'i', 'g', ':'] then
    if (toCanonicalJson t).data.length + 1 ≤ (s.data.drop 4).length ∧
        (s.data.drop 4).drop
            ((s.data.drop 4).length - ((toCanonicalJson t).data.length + 1)) =
          ':' :: (toCanonicalJson t).data then
      some ("addr:" ++ String.mk
        ((s.data.drop 4).take
          ((s.data.drop 4).length - ((toCanonicalJson t).data.length + 1))))
    else some "0xRecoveredFromOtherMessage"
  else none

/-- The concrete primitive: keys are hex-like strings; signing binds key and
message; the derived identity of key `k` is `addr:k`. -/
def modelPrim : CryptoPrim where
  keccakHex s := "0xkeccak(" ++ s ++ ")"
  sign k t :=
    match k with
    | .str ks => some ("sig:" ++ ks ++ ":" ++ toCanonicalJson t, "addr:" ++ ks)
    | _ => none
  recover := modelRecover
  privToAddr k :=
    match k with
    | .str ks => "addr:" ++ ks
    | _ => ""

/-- Recovering a signature against the very message that was signed yields
the signer's derived identity. -/
theorem modelRecover_sign (ks : String) (t : Json) :
    modelRecover t ("sig:" ++ ks ++ ":" ++ toCanonicalJson t) = some ("addr:" ++ ks) := by
  have hd : ("sig:" ++ ks ++ ":" ++ toCanonicalJson t).data =
      ['s', 'i', 'g', ':'] ++ (ks.data ++ ':' :: (toCanonicalJson t).data) := by
    simp [String.data_append]
  unfold modelRecover
  rw [hd]
  rw [List.take_left' (by rfl), List.drop_left' (by rfl)]
  have hlen : (ks.data ++ ':' :: (toCanonicalJson t).data).length -
      ((toCanonicalJson t).data.length + 1) = ks.data.length := by
    simp
  rw [if_pos rfl, hlen]
  rw [if_pos ⟨by simp, List.drop_left _ _⟩, List.take_left]

/- ### Proof-object key-set preservation -/

/-- Key list of a dict (empty for non-dicts). -/
def jsonKeys : Json → List String
  | .obj kvs => kvs.map Prod.fst
  | _ => []

theorem jsonKeys_setIfPresent (j : Json) (k : String) (v : Json) :
    jsonKeys (j.setIfPresent k v) = jsonKeys j := by
  cases j with
  | obj kvs =>
      by_cases hp : (lookupKey k kvs).isSome <;>
        simp [Json.setIfPresent, hp, jsonKeys, mapFirst_keys]
  | _ => rfl

theorem sectionProofWriter_keys (hash sig : String) (pf : Json) :
    jsonKeys (sectionProofWriter hash sig pf) = jsonKeys pf := by
  unfold sectionProofWriter
  by_cases hp : pf.isObj = true <;> simp [hp, jsonKeys_setIfPresent]

theorem topProofWriter_keys (sig : String) (pf : Json) :
    jsonKeys (topProofWriter sig pf) = jsonKeys pf := by
  unfold topProofWriter
  by_cases hp : pf.isObj = true <;> simp [hp, jsonKeys_setIfPresent]

theorem sectionProofWriter_getKeyOpt_other (hash sig : String) (pf : Json)
    (k : String) (h1 : k ≠ "type") (h2 : k ≠ "sectionHash") (h3 : k ≠ "proofValue") :
    (sectionProofWriter hash sig pf).getKeyOpt k = pf.getKeyOpt k := by
  unfold sectionProofWriter
  by_cases hp : pf.isObj = true
  · simp only [hp, if_true]
    rw [setIfPresent_getKeyOpt_ne _ _ _ _ (Ne.symm h3),
      setIfPresent_getKeyOpt_ne _ _ _ _ (Ne.symm h2),
      setIfPresent_getKeyOpt_ne _ _ _ _ (Ne.symm h1)]
  · simp [hp]

theorem topProofWriter_getKeyOpt_other (sig : String) (pf : Json)
    (k : String) (h1 : k ≠ "type") (h3 : k ≠ "proofValue") :
    (topProofWriter sig pf).getKeyOpt k = pf.getKeyOpt k := by
  unfold topProofWriter
  by_cases hp : pf.isObj = true
  · simp only [hp, if_true]
    rw [setIfPresent_getKeyOpt_ne _ _ _ _ (Ne.symm h3),
      setIfPresent_getKeyOpt_ne _ _ _ _ (Ne.symm h1)]
  · simp [hp]

/-- `getKeyN` through an in-place value update at the same key. -/
theorem getKeyN_atKey_same (k : String) (g : Json → Json) (j : Json) :
    (atKey k g j).getKeyN k = ((j.getKeyOpt k).map g).getD .null := by
  cases j with
  | obj kvs => simp [atKey, Json.getKeyN, Json.getKeyD, Json.getKeyOpt,
      lookupKey_mapFirst_same]
  | _ => rfl

/-- `getKeyN` as `getKeyOpt` with a null default. -/
theorem getKeyN_eq_getKeyOpt (j : Json) (k : String) :
    j.getKeyN k = (j.getKeyOpt k).getD .null := by
  cases j <;> rfl

/-- One section proof update: proof-object keys at every section path are
unchanged, and fields other than the three written ones are untouched. -/
theorem sProof_upd_step_nm (n m hash sig : String) (d : Json) :
    jsonKeys ((getParts (updateAt ["credentialSubject", n]
        (updateSectionProof hash sig) d) ["credentialSubject", m]).getKeyN "sProof") =
      jsonKeys ((getParts d ["credentialSubject", m]).getKeyN "sProof") ∧
    ∀ k, k ≠ "type" → k ≠ "sectionHash" → k ≠ "proofValue" →
      ((getParts (updateAt ["credentialSubject", n]
          (updateSectionProof hash sig) d) ["credentialSubject", m]).getKeyN
            "sProof").getKeyOpt k =
        ((getParts d ["credentialSubject", m]).getKeyN "sProof").getKeyOpt k := by
  rw [updateAt_two]
  by_cases hm : m = n
  · subst hm
    rw [getParts_sectionUpd_same, getParts_two]
    cases d.getKeyOpt "credentialSubject" with
    | none => exact ⟨rfl, fun _ _ _ _ => rfl⟩
    | some v =>
        show jsonKeys ((match v.getKeyOpt m with
              | some w => atKey "sProof" (sectionProofWriter hash sig) w
              | none => Json.null).getKeyN "sProof") =
            jsonKeys ((match v.getKeyOpt m with
              | some w => w
              | none => Json.null).getKeyN "sProof") ∧
          ∀ k, k ≠ "type" → k ≠ "sectionHash" → k ≠ "proofValue" →
            ((match v.getKeyOpt m with
              | some w => atKey "sProof" (sectionProofWriter hash sig) w
              | none => Json.null).getKeyN "sProof").getKeyOpt k =
              ((match v.getKeyOpt m with
                | some w => w
                | none => Json.null).getKeyN "sProof").getKeyOpt k
        cases v.getKeyOpt m with
        | none => exact ⟨rfl, fun _ _ _ _ => rfl⟩
        | some w =>
            constructor
            · show jsonKeys ((atKey "sProof" (sectionProofWriter hash sig) w).getKeyN
                  "sProof") = jsonKeys (w.getKeyN "sProof")
              rw [getKeyN_atKey_same, getKeyN_eq_getKeyOpt]
              cases w.getKeyOpt "sProof" with
              | none => rfl
              | some pf =>
                  show jsonKeys (sectionProofWriter hash sig pf) = jsonKeys pf
                  exact sectionProofWriter_keys hash sig pf
            · intro k h1 h2 h3
              show ((atKey "sProof" (sectionProofWriter hash sig) w).getKeyN
                  "sProof").getKeyOpt k = ((w.getKeyN "sProof")).getKeyOpt k
              rw [getKeyN_atKey_same, getKeyN_eq_getKeyOpt]
              cases w.getKeyOpt "sProof" with
              | none => rfl
              | some pf =>
                  show (sectionProofWriter hash sig pf).getKeyOpt k = pf.getKeyOpt k
                  exact sectionProofWriter_getKeyOpt_other hash sig pf k h1 h2 h3
  · rw [getParts_sectionUpd_ne _ _ hm]
    exact ⟨rfl, fun _ _ _ _ => rfl⟩

/-- Lifted to the string section paths. -/
theorem sProof_upd_step (p q : String) (hp : p ∈ SECTION_PATHS)
    (hq : q ∈ SECTION_PATHS) (hash sig : String) (d : Json) :
    jsonKeys ((getByPath (updateAt (pathParts p)
        (updateSectionProof hash sig) d) q).getKeyN "sProof") =
      jsonKeys ((getByPath d q).getKeyN "sProof") ∧
    ∀ k, k ≠ "type" → k ≠ "sectionHash" → k ≠ "proofValue" →
      ((getByPath (updateAt (pathParts p)
          (updateSectionProof hash sig) d) q).getKeyN "sProof").getKeyOpt k =
        ((getByPath d q).getKeyN "sProof").getKeyOpt k := by
  rcases sectionPath_cases hp with rfl | rfl | rfl <;>
    rcases sectionPath_cases hq with rfl | rfl | rfl <;>
    exact sProof_upd_step_nm _ _ hash sig d

/-- The root proof entry is untouched by a section proof update, stated at
the two-key path. -/
theorem proofKey_upd_step_nm (n hash sig : String) (d : Json) :
    (updateAt ["credentialSubject", n]
      (updateSectionProof hash sig) d).getKeyOpt "proof" = d.getKeyOpt "proof" := by
  rw [updateAt_two]
  exact getKeyOpt_proof_sectionUpd _ _ d

/-- The root proof entry is untouched by a section proof update. -/
theorem proofKey_upd_step (p : String) (hp : p ∈ SECTION_PATHS)
    (hash sig : String) (d : Json) :
    (updateAt (pathParts p) (updateSectionProof hash sig) d).getKeyOpt "proof" =
      d.getKeyOpt "proof" := by
  rcases sectionPath_cases hp with rfl | rfl | rfl <;>
    exact proofKey_upd_step_nm _ hash sig d

/-- Proof-object keys and untouched fields across the whole section loop. -/
theorem applyIssue_sProof (C : CryptoPrim) (domain : Eip712Domain) (clean : Json) :
    ∀ L : List (String × Json), (∀ pk ∈ L, pk.1 ∈ SECTION_PATHS) →
    ∀ issued : Json, ∀ q ∈ SECTION_PATHS,
    jsonKeys ((getByPath (applyIssue C domain clean L issued) q).getKeyN "sProof") =
      jsonKeys ((getByPath issued q).getKeyN "sProof") ∧
    ∀ k, k ≠ "type" → k ≠ "sectionHash" → k ≠ "proofValue" →
      ((getByPath (applyIssue C domain clean L issued) q).getKeyN "sProof").getKeyOpt k =
        ((getByPath issued q).getKeyN "sProof").getKeyOpt k := by
  intro L
  induction L with
  | nil => intro _ issued q _; exact ⟨rfl, fun _ _ _ _ => rfl⟩
  | cons pk rest ih =>
      obtain ⟨p, k⟩ := pk
      intro hL issued q hq
      by_cases hpres : (getByPath issued p).isObj = true
      · rw [show applyIssue C domain clean ((p, k) :: rest) issued =
            applyIssue C domain clean rest
              (updateAt (pathParts p)
                (updateSectionProof (sectionHashAt C clean p)
                  (sigOf C k (buildSectionTypedData domain p (sectionHashAt C clean p))))
                issued)
            from by simp only [applyIssue, hpres, if_true]]
        have hstep := sProof_upd_step p q (hL (p, k) (List.mem_cons_self _ _)) hq
          (sectionHashAt C clean p)
          (sigOf C k (buildSectionTypedData domain p (sectionHashAt C clean p))) issued
        have hrec := ih (fun r hr => hL r (List.mem_cons_of_mem _ hr))
          (updateAt (pathParts p)
            (updateSectionProof (sectionHashAt C clean p)
              (sigOf C k (buildSectionTypedData domain p (sectionHashAt C clean p))))
            issued) q hq
        exact ⟨hrec.1.trans hstep.1,
          fun k2 h1 h2 h3 => (hrec.2 k2 h1 h2 h3).trans (hstep.2 k2 h1 h2 h3)⟩
      · rw [show applyIssue C domain clean ((p, k) :: rest) issued =
            applyIssue C domain clean rest issued
            from by simp only [applyIssue, hpres, if_false, Bool.false_eq_true]]
        exact ih (fun r hr => hL r (List.mem_cons_of_mem _ hr)) issued q hq

/-- The root proof entry across the whole section loop. -/
theorem applyIssue_proofKey (C : CryptoPrim) (domain : Eip712Domain) (clean : Json) :
    ∀ L : List (String × Json), (∀ pk ∈ L, pk.1 ∈ SECTION_PATHS) →
    ∀ issued : Json,
    (applyIssue C domain clean L issued).getKeyOpt "proof" =
      issued.getKeyOpt "proof" := by
  intro L
  induction L with
  | nil => intro _ issued; rfl
  | cons pk rest ih =>
      obtain ⟨p, k⟩ := pk
      intro hL issued
      by_cases hpres : (getByPath issued p).isObj = true
      · rw [show applyIssue C domain clean ((p, k) :: rest) issued =
            applyIssue C domain clean rest
              (updateAt (pathParts p)
                (updateSectionProof (sectionHashAt C clean p)
                  (sigOf C k (buildSectionTypedData domain p (sectionHashAt C clean p))))
                issued)
            from by simp only [applyIssue, hpres, if_true]]
        rw [ih (fun r hr => hL r (List.mem_cons_of_mem _ hr))]
        exact proofKey_upd_step p (hL (p, k) (List.mem_cons_self _ _)) _ _ issued
      · rw [show applyIssue C domain clean ((p, k) :: rest) issued =
            applyIssue C domain clean rest issued
            from by simp only [applyIssue, hpres, if_false, Bool.false_eq_true]]
        exact ih (fun r hr => hL r (List.mem_cons_of_mem _ hr)) issued

/- ### Re-running the section loop on a document with equal presence -/

/-- Two input documents with the same clean form and the same present
sections run the per-section loop to success together, with identical
metadata. -/
theorem issueSections_ok_congr (C : CryptoPrim) (domain : Eip712Domain) (clean : Json) :
    ∀ L : List (String × Json), (∀ pk ∈ L, pk.1 ∈ SECTION_PATHS) →
    ∀ (dA dB : Json) (mA0 : List Json) (A2 : Json) (mA : List Json),
    issueSections C domain clean L dA mA0 = .ok (A2, mA) →
    (∀ q ∈ SECTION_PATHS, (getByPath dB q).isObj = (getByPath dA q).isObj) →
    ∀ mB0 : List Json, ∃ B2 : Json,
      issueSections C domain clean L dB mB0 =
        .ok (B2, mB0 ++ issueMetaFor C domain clean L dB) ∧
      issueMetaFor C domain clean L dB = issueMetaFor C domain clean L dA := by
  intro L
  induction L with
  | nil =>
      intro _ dA dB mA0 A2 mA _ _ mB0
      exact ⟨dB, by simp [issueSections, issueMetaFor], rfl⟩
  | cons pk rest ih =>
      obtain ⟨p, k⟩ := pk
      intro hL dA dB mA0 A2 mA hA hpres mB0
      have hp : p ∈ SECTION_PATHS := hL (p, k) (List.mem_cons_self _ _)
      by_cases hprA : (getByPath dA p).isObj = true
      · have hprB : (getByPath dB p).isObj = true := by rw [hpres p hp, hprA]
        rw [show issueSections C domain clean ((p, k) :: rest) dA mA0 =
            (match C.sign k (buildSectionTypedData domain p
                (keccak256Json C (pyOrEmptyObj (getByPath clean p)))) with
             | none => .error "SigningError"
             | some (signature, _) =>
                issueSections C domain clean rest
                  (updateAt (pathParts p)
                    (updateSectionProof (keccak256Json C (pyOrEmptyObj (getByPath clean p)))
                      signature) dA)
                  (mA0 ++ [Json.obj [("path", .str p),
                    ("sectionHash",
                      .str (keccak256Json C (pyOrEmptyObj (getByPath clean p))))]]))
            from by simp only [issueSections, hprA, if_true]] at hA
        cases hsig : C.sign k (buildSectionTypedData domain p
            (keccak256Json C (pyOrEmptyObj (getByPath clean p)))) with
        | none => rw [hsig] at hA; exact absurd hA (by simp)
        | some pr =>
            obtain ⟨sg, ad⟩ := pr
            rw [hsig] at hA
            have hpres2 : ∀ q ∈ SECTION_PATHS,
                (getByPath (updateAt (pathParts p)
                  (updateSectionProof (keccak256Json C (pyOrEmptyObj (getByPath clean p)))
                    sg) dB) q).isObj =
                (getByPath (updateAt (pathParts p)
                  (updateSectionProof (keccak256Json C (pyOrEmptyObj (getByPath clean p)))
                    sg) dA) q).isObj := by
              intro q hq
              rw [isObj_updSection_at p q hp hq, isObj_updSection_at p q hp hq]
              exact hpres q hq
            obtain ⟨B2, hB, hMeq⟩ := ih (fun r hr => hL r (List.mem_cons_of_mem _ hr))
              _ _ _ _ _ hA hpres2
              (mB0 ++ [Json.obj [("path", .str p),
                ("sectionHash", .str (keccak256Json C (pyOrEmptyObj (getByPath clean p))))]])
            refine ⟨B2, ?_, ?_⟩
            · rw [show issueSections C domain clean ((p, k) :: rest) dB mB0 =
                  issueSections C domain clean rest
                    (updateAt (pathParts p)
                      (updateSectionProof (keccak256Json C (pyOrEmptyObj (getByPath clean p)))
                        sg) dB)
                    (mB0 ++ [Json.obj [("path", .str p),
                      ("sectionHash",
                        .str (keccak256Json C (pyOrEmptyObj (getByPath clean p))))]])
                  from by simp only [issueSections, hprB, if_true, hsig]]
              rw [hB]
              rw [show issueMetaFor C domain clean ((p, k) :: rest) dB =
                  Json.obj [("path", .str p),
                    ("sectionHash", .str (sectionHashAt C clean p))] ::
                    issueMetaFor C domain clean rest
                      (updateAt (pathParts p)
                        (updateSectionProof (sectionHashAt C clean p)
                          (sigOf C k (buildSectionTypedData domain p
                            (sectionHashAt C clean p)))) dB)
                  from by simp only [issueMetaFor, hprB, if_true]]
              have hsg : sigOf C k (buildSectionTypedData domain p
                  (keccak256Json C (pyOrEmptyObj (getByPath clean p)))) = sg := by
                simp [sigOf, hsig]
              simp only [sectionHashAt, hsg]
              simp
            · have hsg : sigOf C k (buildSectionTypedData domain p
                  (keccak256Json C (pyOrEmptyObj (getByPath clean p)))) = sg := by
                simp [sigOf, hsig]
              rw [show issueMetaFor C domain clean ((p, k) :: rest) dB =
                  Json.obj [("path", .str p),
                    ("sectionHash", .str (sectionHashAt C clean p))] ::
                    issueMetaFor C domain clean rest
                      (updateAt (pathParts p)
                        (updateSectionProof (sectionHashAt C clean p)
                          (sigOf C k (buildSectionTypedData domain p
                            (sectionHashAt C clean p)))) dB)
                  from by simp only [issueMetaFor, hprB, if_true],
                show issueMetaFor C domain clean ((p, k) :: rest) dA =
                  Json.obj [("path", .str p),
                    ("sectionHash", .str (sectionHashAt C clean p))] ::
                    issueMetaFor C domain clean rest
                      (updateAt (pathParts p)
                        (updateSectionProof (sectionHashAt C clean p)
                          (sigOf C k (buildSectionTypedData domain p
                            (sectionHashAt C clean p)))) dA)
                  from by simp only [issueMetaFor, hprA, if_true]]
              simp only [sectionHashAt, hsg]
              rw [hMeq]
      · have hprB : ¬ (getByPath dB p).isObj = true := by rw [hpres p hp]; exact hprA
        rw [show issueSections C domain clean ((p, k) :: rest) dA mA0 =
            issueSections C domain clean rest dA mA0
            from by simp only [issueSections, hprA, if_false, Bool.false_eq_true]] at hA
        obtain ⟨B2, hB, hMeq⟩ := ih (fun r hr => hL r (List.mem_cons_of_mem _ hr))
          _ _ _ _ _ hA hpres mB0
        refine ⟨B2, ?_, ?_⟩
        · rw [show issueSections C domain clean ((p, k) :: rest) dB mB0 =
              issueSections C domain clean rest dB mB0
              from by simp only [issueSections, hprB, if_false, Bool.false_eq_true],
            show issueMetaFor C domain clean ((p, k) :: rest) dB =
              issueMetaFor C domain clean rest dB
              from by simp only [issueMetaFor, hprB, if_false, Bool.false_eq_true]]
          exact hB
        · rw [show issueMetaFor C domain clean ((p, k) :: rest) dB =
              issueMetaFor C domain clean rest dB
              from by simp only [issueMetaFor, hprB, if_false, Bool.false_eq_true],
            show issueMetaFor C domain clean ((p, k) :: rest) dA =
              issueMetaFor C domain clean rest dA
              from by simp only [issueMetaFor, hprA, if_false, Bool.false_eq_true]]
          exact hMeq

/- ### Small inversion helpers for Python `get` -/

theorem pyGetD_ok_eq {j : Json} {k : String} {dflt r : Json}
    (h : pyGetD j k dflt = .ok r) : r = j.getKeyD k dflt := by
  cases j <;> simp_all [pyGetD, Json.getKeyD]

theorem pyGet_ok_eq {j : Json} {k : String} {o : Option Json}
    (h : pyGet j k = .ok o) : o.getD .null = j.getKeyN k := by
  cases j <;> simp_all [pyGet, Json.getKeyN, Json.getKeyD]

/-- Membership of the issuance pair list in the section paths. -/
theorem issuePairs_mem (pid pcomp pcust : Json) :
    ∀ pk ∈ [("/credentialSubject/identity", pid),
            ("/credentialSubject/compliance", pcomp),
            ("/credentialSubject/custody", pcust)], pk.1 ∈ SECTION_PATHS := by
  intro pk hpk
  simp only [List.mem_cons, List.not_mem_nil, or_false] at hpk
  rcases hpk with rfl | rfl | rfl <;> simp [SECTION_PATHS]

/-- A successful `issue` strips to the same clean document as its input, and
its document hash is the digest of that clean document. -/
theorem issue_ok_strip {C : CryptoPrim} {vc keysCfg : Json} {vctr : String}
    {d : Json} {m : List Json} (h : issue C vc keysCfg vctr = .ok (d, m)) :
    stripEip712 d = stripEip712 vc ∧
    m.getLast? = some (.obj [("path", .str "/"),
      ("documentHash", .str (keccak256Json C (stripEip712 vc)))]) := by
  obtain ⟨domainCfg, domain, keys, oid, ocomp, ocust, odoc, i2, meta, sigdoc, addr,
    _, _, _, _, _, _, _, h8, _, hd, hm⟩ := issue_ok_elim h
  have hc := issueSections_ok_char C domain (stripEip712 vc) _ _ _ _ _ h8
  have hstrip : stripEip712 i2 = stripEip712 vc := by
    rw [hc.1]
    exact applyIssue_strip C domain (stripEip712 vc) _
      (issuePairs_mem _ _ _) vc
  constructor
  · rw [hd, stripEip712_updateTopProof, hstrip]
  · rw [hm, hstrip]
    simp

/-- Forward construction of a successful `issue` run from its steps. -/
theorem issue_ok_intro {C : CryptoPrim} {vc keysCfg : Json} {vctr : String}
    {domainCfg : Json} {domain : Eip712Domain} {keys : Json}
    {oid ocomp ocust odoc : Option Json} {i2 : Json} {meta : List Json}
    {sigdoc addr : String}
    (h1 : pyGetD keysCfg "domain" (.obj []) = .ok domainCfg)
    (h2 : resolveDomain domainCfg vctr = .ok domain)
    (h3 : pyGetD keysCfg "keys" (.obj []) = .ok keys)
    (h4 : pyGet keys "identity" = .ok oid)
    (h5 : pyGet keys "compliance" = .ok ocomp)
    (h6 : pyGet keys "custody" = .ok ocust)
    (h7 : pyGet keys "document" = .ok odoc)
    (h8 : issueSections C domain (stripEip712 vc)
      [("/credentialSubject/identity", oid.getD .null),
       ("/credentialSubject/compliance", ocomp.getD .null),
       ("/credentialSubject/custody", ocust.getD .null)] vc [] = .ok (i2, meta))
    (h9 : C.sign (odoc.getD .null)
      (buildDocumentTypedData domain (keccak256Json C (stripEip712 i2))) =
        some (sigdoc, addr)) :
    issue C vc keysCfg vctr = .ok (updateTopProof sigdoc i2,
      meta ++ [Json.obj [("path", .str "/"),
        ("documentHash", .str (keccak256Json C (stripEip712 i2)))]]) := by
  unfold issue
  rw [h1]
  simp only [exceptBind_ok]
  rw [h2]
  simp only [exceptBind_ok]
  rw [h3]
  simp only [exceptBind_ok]
  rw [h4]
  simp only [exceptBind_ok]
  rw [h5]
  simp only [exceptBind_ok]
  rw [h6]
  simp only [exceptBind_ok]
  rw [h7]
  simp only [exceptBind_ok]
  rw [h8]
  simp only [exceptBind_ok]
  show (match C.sign (odoc.getD .null)
      (buildDocumentTypedData domain (keccak256Json C (stripEip712 i2))) with
    | none => Except.error "SigningError"
    | some (sigDoc, _) =>
        Except.ok (updateTopProof sigDoc i2,
          meta ++ [Json.obj [("path", .str "/"),
            ("documentHash", .str (keccak256Json C (stripEip712 i2)))]])) = _
  rw [h9]

/- ### Verification characterization -/

/-- The failing document entry emitted when the root proof is missing. -/
def missingProofResult : Json :=
  .obj [("path", .str "/"), ("ok", .bool false), ("reason", .str "missing proof")]

/-- The failing section entry emitted when a present section has no `sProof`
dict. -/
def missingSProofResult (path : String) : Json :=
  .obj [("path", .str path), ("ok", .bool false), ("reason", .str "missing sProof")]

/-- Unfolding of the section loop over the three section paths. -/
theorem sectionSteps_three {C : CryptoPrim} {vc clean : Json} {exp : Option Json}
    {o1 o2 o3 : Option Json}
    (h1 : sectionStep C vc clean exp "/credentialSubject/identity" = .ok o1)
    (h2 : sectionStep C vc clean exp "/credentialSubject/compliance" = .ok o2)
    (h3 : sectionStep C vc clean exp "/credentialSubject/custody" = .ok o3) :
    sectionSteps C vc clean exp SECTION_PATHS =
      .ok (o1.toList ++ (o2.toList ++ o3.toList)) := by
  show sectionSteps C vc clean exp
    ["/credentialSubject/identity", "/credentialSubject/compliance",
     "/credentialSubject/custody"] = _
  unfold sectionSteps
  rw [h1]
  simp only [exceptBind_ok]
  unfold sectionSteps
  rw [h2]
  simp only [exceptBind_ok]
  unfold sectionSteps
  rw [h3]
  simp only [exceptBind_ok]
  show Except.ok (o1.toList ++ (o2.toList ++ (o3.toList ++ []))) = _
  simp

/-- Inversion of the section loop over the three section paths. -/
theorem sectionSteps_three_elim {C : CryptoPrim} {vc clean : Json} {exp : Option Json}
    {secs : List Json}
    (h : sectionSteps C vc clean exp SECTION_PATHS = .ok secs) :
    ∃ o1 o2 o3 : Option Json,
      sectionStep C vc clean exp "/credentialSubject/identity" = .ok o1 ∧
      sectionStep C vc clean exp "/credentialSubject/compliance" = .ok o2 ∧
      sectionStep C vc clean exp "/credentialSubject/custody" = .ok o3 ∧
      secs = o1.toList ++ (o2.toList ++ o3.toList) := by
  rw [show SECTION_PATHS = ["/credentialSubject/identity", "/credentialSubject/compliance",
      "/credentialSubject/custody"] from rfl] at h
  unfold sectionSteps at h
  cases k1 : sectionStep C vc clean exp "/credentialSubject/identity" with
  | error e => rw [k1, exceptBind_err] at h; exact Except.noConfusion h
  | ok o1 =>
  rw [k1] at h
  simp only [exceptBind_ok] at h
  unfold sectionSteps at h
  cases k2 : sectionStep C vc clean exp "/credentialSubject/compliance" with
  | error e => rw [k2, exceptBind_err] at h; exact Except.noConfusion h
  | ok o2 =>
  rw [k2] at h
  simp only [exceptBind_ok] at h
  unfold sectionSteps at h
  cases k3 : sectionStep C vc clean exp "/credentialSubject/custody" with
  | error e => rw [k3, exceptBind_err] at h; exact Except.noConfusion h
  | ok o3 =>
  rw [k3] at h
  simp only [exceptBind_ok] at h
  have h2 : Except.ok (ε := String) (o1.toList ++ (o2.toList ++ (o3.toList ++ []))) =
      Except.ok secs := h
  simp only [Except.ok.injEq] at h2
  exact ⟨o1, o2, o3, rfl, rfl, rfl, by rw [← h2]; simp⟩

/-- `verify` when the root proof is missing: section results are kept and a
single failing document entry closes the list. -/
theorem verify_intro_missing {C : CryptoPrim} {vc : Json} {exp : Option Json}
    {secs : List Json} {o : Option Json}
    (hsecs : sectionSteps C vc (stripEip712 vc) exp SECTION_PATHS = .ok secs)
    (hget : pyGet vc "proof" = .ok o) (hno : (o.getD .null).isObj = false) :
    verify C vc exp = .ok (secs ++ [missingProofResult]) := by
  unfold verify
  simp only [hsecs, exceptBind_ok, hget, hno, Bool.false_eq_true, if_false]
  rfl

/-- `verify` when the root proof is a dict. -/
theorem verify_intro_doc {C : CryptoPrim} {vc : Json} {exp : Option Json}
    {secs : List Json} {o : Option Json} {r : Json}
    (hsecs : sectionSteps C vc (stripEip712 vc) exp SECTION_PATHS = .ok secs)
    (hget : pyGet vc "proof" = .ok o) (hobj : (o.getD .null).isObj = true)
    (hdoc : docStep C vc exp (o.getD .null) = .ok r) :
    verify C vc exp = .ok (secs ++ [r]) := by
  unfold verify
  simp only [hsecs, exceptBind_ok, hget, hobj, if_true, hdoc]

/-- Inversion of a successful `verify` run. -/
theorem verify_ok_elim {C : CryptoPrim} {vc : Json} {exp : Option Json}
    {res : List Json} (h : verify C vc exp = .ok res) :
    ∃ (secs : List Json) (o : Option Json),
      sectionSteps C vc (stripEip712 vc) exp SECTION_PATHS = .ok secs ∧
      pyGet vc "proof" = .ok o ∧
      (((o.getD .null).isObj = false ∧ res = secs ++ [missingProofResult]) ∨
       ((o.getD .null).isObj = true ∧
        ∃ r, docStep C vc exp (o.getD .null) = .ok r ∧ res = secs ++ [r])) := by
  unfold verify at h
  cases k1 : sectionSteps C vc (stripEip712 vc) exp SECTION_PATHS with
  | error e =>
      simp only [k1, exceptBind_err] at h
      exact Except.noConfusion h
  | ok secs =>
  simp only [k1, exceptBind_ok] at h
  cases k2 : pyGet vc "proof" with
  | error e =>
      simp only [k2, exceptBind_err] at h
      exact Except.noConfusion h
  | ok o =>
  simp only [k2, exceptBind_ok] at h
  by_cases hobj : (o.getD .null).isObj = true
  · simp only [hobj, if_true] at h
    cases k3 : docStep C vc exp (o.getD .null) with
    | error e =>
        simp only [k3, exceptBind_err] at h
        exact Except.noConfusion h
    | ok r =>
        simp only [k3, exceptBind_ok, Except.ok.injEq] at h
        exact ⟨secs, o, rfl, rfl, Or.inr ⟨hobj, r, k3, h.symm⟩⟩
  · simp only [eq_false_intro hobj, Bool.false_eq_true, if_false, Except.ok.injEq] at h
    exact ⟨secs, o, rfl, rfl, Or.inl ⟨by simpa using hobj, by rw [← h]; rfl⟩⟩

/- ### Field-level facts about the proof writers -/

theorem getKeyD_eq_getKeyOpt (j : Json) (k : String) (dflt : Json) :
    j.getKeyD k dflt = (j.getKeyOpt k).getD dflt := by
  cases j <;> rfl

theorem getKeyOpt_isSome_isObj (j : Json) (k : String)
    (h : (j.getKeyOpt k).isSome) : j.isObj = true := by
  cases j <;> simp_all [Json.getKeyOpt, Json.isObj]

theorem strEqPy_same (s : String) : strEqPy s (some (.str s)) = true := by
  simp [strEqPy]

theorem strEqPy_true_iff (s : String) (o : Option Json) :
    strEqPy s o = true ↔ o = some (.str s) := by
  cases o with
  | none => simp [strEqPy]
  | some j =>
      cases j with
      | str t =>
          show decide (s = t) = true ↔ _
          simp only [decide_eq_true_eq, Option.some.injEq]
          constructor
          · intro h
            rw [h]
          · intro h
            injection h with h2
            exact h2.symm
      | null => simp [strEqPy]
      | bool b => simp [strEqPy]
      | num n => simp [strEqPy]
      | arr xs => simp [strEqPy]
      | obj kvs => simp [strEqPy]

theorem setIfPresent_absent (j : Json) (k : String) (v : Json)
    (h : ¬ (j.getKeyOpt k).isSome = true) : j.setIfPresent k v = j := by
  cases j with
  | obj kvs => simp_all [Json.setIfPresent, Json.getKeyOpt]
  | null => rfl
  | bool b => rfl
  | num n => rfl
  | str t => rfl
  | arr xs => rfl

theorem setIfPresent_getKeyOpt_isSome (j : Json) (k k2 : String) (v : Json) :
    ((j.setIfPresent k v).getKeyOpt k2).isSome = (j.getKeyOpt k2).isSome := by
  by_cases h : k2 = k
  · subst h
    by_cases hp : (j.getKeyOpt k2).isSome = true
    · rw [setIfPresent_getKeyOpt_present _ _ _ hp, hp]
      rfl
    · rw [setIfPresent_absent _ _ _ hp]
  · rw [setIfPresent_getKeyOpt_ne _ _ _ _ (Ne.symm h)]

theorem sectionProofWriter_isObj (hash sig : String) (pf : Json) :
    (sectionProofWriter hash sig pf).isObj = pf.isObj := by
  unfold sectionProofWriter
  by_cases hp : pf.isObj = true
  · simp [hp, setIfPresent_isObj]
  · simp [hp]

theorem topProofWriter_isObj (sig : String) (pf : Json) :
    (topProofWriter sig pf).isObj = pf.isObj := by
  unfold topProofWriter
  by_cases hp : pf.isObj = true
  · simp [hp, setIfPresent_isObj]
  · simp [hp]

theorem sectionProofWriter_proofValue (hash sig : String) (pf : Json)
    (hobj : pf.isObj = true) (hp : (pf.getKeyOpt "proofValue").isSome = true) :
    (sectionProofWriter hash sig pf).getKeyOpt "proofValue" = some (.str sig) := by
  unfold sectionProofWriter
  rw [if_pos hobj]
  apply setIfPresent_getKeyOpt_present
  rw [setIfPresent_getKeyOpt_isSome, setIfPresent_getKeyOpt_isSome]
  exact hp

theorem sectionProofWriter_sectionHash (hash sig : String) (pf : Json)
    (hobj : pf.isObj = true) (hp : (pf.getKeyOpt "sectionHash").isSome = true) :
    (sectionProofWriter hash sig pf).getKeyOpt "sectionHash" = some (.str hash) := by
  unfold sectionProofWriter
  rw [if_pos hobj]
  rw [setIfPresent_getKeyOpt_ne _ _ _ _ (by decide)]
  apply setIfPresent_getKeyOpt_present
  rw [setIfPresent_getKeyOpt_isSome]
  exact hp

theorem sectionProofWriter_type (hash sig : String) (pf : Json)
    (hobj : pf.isObj = true) (hp : (pf.getKeyOpt "type").isSome = true) :
    (sectionProofWriter hash sig pf).getKeyOpt "type" =
      some (.str "Eip712Signature2023") := by
  unfold sectionProofWriter
  rw [if_pos hobj]
  rw [setIfPresent_getKeyOpt_ne _ _ _ _ (by decide),
    setIfPresent_getKeyOpt_ne _ _ _ _ (by decide)]
  exact setIfPresent_getKeyOpt_present _ _ _ hp

theorem topProofWriter_proofValue (sig : String) (pf : Json)
    (hobj : pf.isObj = true) (hp : (pf.getKeyOpt "proofValue").isSome = true) :
    (topProofWriter sig pf).getKeyOpt "proofValue" = some (.str sig) := by
  unfold topProofWriter
  rw [if_pos hobj]
  apply setIfPresent_getKeyOpt_present
  rw [setIfPresent_getKeyOpt_isSome]
  exact hp

theorem topProofWriter_type (sig : String) (pf : Json)
    (hobj : pf.isObj = true) (hp : (pf.getKeyOpt "type").isSome = true) :
    (topProofWriter sig pf).getKeyOpt "type" = some (.str "Eip712Signature2023") := by
  unfold topProofWriter
  rw [if_pos hobj]
  rw [setIfPresent_getKeyOpt_ne _ _ _ _ (by decide)]
  exact setIfPresent_getKeyOpt_present _ _ _ hp

/- ### Per-target result shapes of the verifier -/

/-- `hash_ok`: the freshly computed section hash against the stored one. -/
def secHashOk (C : CryptoPrim) (clean : Json) (p : String) (pf : Json) : Bool :=
  strEqPy (keccak256Json C (pyOrEmptyObj (getByPath clean p))) (pf.getKeyOpt "sectionHash")

/-- The expected signer a section check compares against. -/
def secExpected (pf : Json) (efk : Option Json) : Option Json :=
  pyOrOpt (pf.getKeyOpt "signer") efk

/-- `addr_ok`: lowercase address comparison, vacuously true without an
expected signer. -/
def secAddrOk (recovered : String) (es : Option Json) : Bool :=
  if truthyOpt es then pyLower recovered == pyLower (pyStr (es.getD .null)) else true

/-- `type_ok`: declared proof type against the fixed EIP-712 type tag. -/
def secTypeOk (pf : Json) : Bool := strEqPy "Eip712Signature2023" (pf.getKeyOpt "type")

/-- The full per-section result record. -/
def sectionResult (C : CryptoPrim) (clean : Json) (p : String) (pf : Json)
    (recovered : String) (efk : Option Json) : Json :=
  .obj [("path", .str p),
        ("ok", .bool (secHashOk C clean p pf &&
          secAddrOk recovered (secExpected pf efk) && secTypeOk pf)),
        ("hash_ok", .bool (secHashOk C clean p pf)),
        ("addr_ok", .bool (secAddrOk recovered (secExpected pf efk))),
        ("type_ok", .bool (secTypeOk pf)),
        ("recovered", .str recovered),
        ("expected_signer", (secExpected pf efk).getD .null),
        ("role", match roleForPath p with | some r => .str r | none => .null)]

/-- A section path that does not resolve to a dict is skipped. -/
theorem sectionStep_absent {C : CryptoPrim} {vc clean : Json} {exp : Option Json}
    {p : String} (h : (getByPath vc p).isObj = false) :
    sectionStep C vc clean exp p = .ok none := by
  unfold sectionStep
  simp only [h, Bool.false_eq_true, if_false]

/-- A present section without an `sProof` dict yields the fixed failing
record. -/
theorem sectionStep_missing {C : CryptoPrim} {vc clean : Json} {exp : Option Json}
    {p : String} (h : (getByPath vc p).isObj = true)
    (h2 : ((getByPath vc p).getKeyN "sProof").isObj = false) :
    sectionStep C vc clean exp p = .ok (some (missingSProofResult p)) := by
  unfold sectionStep
  simp only [h, if_true, h2, Bool.false_eq_true, if_false]
  rfl

/-- A present section with an `sProof` dict whose domain parses, whose stored
signature recovers, and whose role key resolves, yields the full result
record. -/
theorem sectionStep_run {C : CryptoPrim} {vc clean : Json} {exp : Option Json}
    {p : String} {dom : Eip712Domain} {recovered : String} {efk : Option Json}
    (hsec : (getByPath vc p).isObj = true)
    (hpf : ((getByPath vc p).getKeyN "sProof").isObj = true)
    (hdom : parseVerifyDomain (((getByPath vc p).getKeyN "sProof").getKeyD "domain"
      defaultDomainJson) = .ok dom)
    (hrec : recoverJ C (buildSectionTypedData dom p
        (keccak256Json C (pyOrEmptyObj (getByPath clean p))))
        (((getByPath vc p).getKeyN "sProof").getKeyD "proofValue" (.str "")) =
      .ok recovered)
    {r : String} (hrole : roleForPath p = some r)
    (hexp : pyGet (pyOrEmptyObjOpt exp) r = .ok efk) :
    sectionStep C vc clean exp p =
      .ok (some (sectionResult C clean p ((getByPath vc p).getKeyN "sProof")
        recovered efk)) := by
  unfold sectionStep sectionResult
  simp only [hsec, if_true, hpf, hdom, exceptBind_ok, hrole, hrec, hexp]
  rfl

/-- The expected signer the document check compares against. -/
def docExpected (pf : Json) (e0 : Option Json) : Option Json :=
  pyOrOpt (pf.getKeyOpt "signer") e0

/-- The document result record: no hash-match flag is computed or stored. -/
def docResult (pf : Json) (recovered : String) (e0 : Option Json) : Json :=
  .obj [("path", .str "/"),
        ("ok", .bool (secAddrOk recovered (docExpected pf e0) &&
          strEqPy "Eip712Signature2023" (pf.getKeyOpt "type"))),
        ("recovered", .str recovered),
        ("expected", (docExpected pf e0).getD .null)]

/-- The document check with a parsing domain, a recovering signature, and a
resolvable expected map yields exactly the `docResult` record. -/
theorem docStep_run {C : CryptoPrim} {vc : Json} {exp : Option Json} {pf : Json}
    {dom : Eip712Domain} {recovered : String} {e0 : Option Json}
    (hdom : parseVerifyDomain (pf.getKeyD "domain" defaultDomainJson) = .ok dom)
    (hrec : recoverJ C (buildDocumentTypedData dom (keccak256Json C (stripEip712 vc)))
        (pf.getKeyD "proofValue" (.str "")) = .ok recovered)
    (hexp : pyGet (pyOrEmptyObjOpt exp) "document" = .ok e0) :
    docStep C vc exp pf = .ok (docResult pf recovered e0) := by
  unfold docStep
  simp only [hdom, exceptBind_ok, hrec, hexp]
  rfl

/- ### Claim theorems -/

/-- C7: canonicalization determinism — for all values that are structurally
equal (same keys and values at every nesting depth, regardless of key
insertion order), `to_canonical_json` produces byte-identical output. -/
theorem c7_canonicalization_determinism (d1 d2 : Json) (h : StructEq d1 d2) :
    toCanonicalJson d1 = toCanonicalJson d2 :=
  structEq_canon h

/-- A pair of deep-equal documents with reordered keys at two depths. -/
def detDocA : Json := .obj [("b", .num 1), ("a", .obj [("y", .num 2), ("x", .num 3)])]

/-- The same document with both dicts reordered. -/
def detDocB : Json := .obj [("a", .obj [("x", .num 3), ("y", .num 2)]), ("b", .num 1)]

theorem c7_witness : StructEq detDocA detDocB ∧ toCanonicalJson detDocA = toCanonicalJson detDocB := by
  have hd : StructEq detDocA detDocB :=
    .obj (.trans (.swap (by decide))
      (.cons (.obj (.swap (by decide))) (.cons (.num 1) .nil)))
  exact ⟨hd, c7_canonicalization_determinism _ _ hd⟩

/-- C3: the `documentHash` signed by `issue` is computed over the document
with all proofs stripped (root `proof` and every section `sProof` removed);
consequently two credentials with equal stripped forms — in particular two
that differ only inside their proof objects — get the same `documentHash`,
which depends on no section hash or signature. -/
theorem c3_document_hash_strips_proofs (C : CryptoPrim) (vc vc2 keysCfg : Json)
    (vctr : String) (d d2 : Json) (m m2 : List Json)
    (h : issue C vc keysCfg vctr = .ok (d, m)) :
    m.getLast? = some (.obj [("path", .str "/"),
      ("documentHash", .str (keccak256Json C (stripEip712 vc)))]) ∧
    (stripEip712 vc2 = stripEip712 vc → issue C vc2 keysCfg vctr = .ok (d2, m2) →
      m2.getLast? = m.getLast?) := by
  refine ⟨(issue_ok_strip h).2, fun hs h2 => ?_⟩
  rw [(issue_ok_strip h).2, (issue_ok_strip h2).2, hs]

/-- Document for the C3 witness: one proof template, no sections. -/
def c3Vc : Json :=
  .obj [("credentialSubject", .obj [("identity", .obj [("a", .num 1),
          ("sProof", .obj [("type", .str "x"), ("sectionHash", .str ""),
                           ("proofValue", .str "")])])]),
        ("proof", .obj [("type", .str "x"), ("proofValue", .str "")])]

/-- The same credential with different placeholder contents inside its proof
objects. -/
def c3Vc2 : Json :=
  .obj [("credentialSubject", .obj [("identity", .obj [("a", .num 1),
          ("sProof", .obj [("type", .str "stale"), ("sectionHash", .str "0xjunk"),
                           ("proofValue", .str "0xstale")])])]),
        ("proof", .obj [("type", .str "garbage"), ("proofValue", .str "0xold")])]

/-- Key config for the issuance witnesses. -/
def wCfg : Json :=
  .obj [("domain", .obj [("name", .str "RWA-VC"), ("version", .str "1"),
                         ("chainId", .num 1)]),
        ("keys", .obj [("identity", .str "k1"), ("compliance", .str "k2"),
                       ("custody", .str "k3"), ("document", .str "kd")])]

/-- The verifying-contract default of the code. -/
def zeroAddr : String := "0x0000000000000000000000000000000000000000"

/-- Issued document of the C3 witness run. -/
def c3d : Json :=
  match issue modelPrim c3Vc wCfg zeroAddr with
  | .ok (d, _) => d
  | .error _ => .null

/-- Proof records of the C3 witness run. -/
def c3m : List Json :=
  match issue modelPrim c3Vc wCfg zeroAddr with
  | .ok (_, m) => m
  | .error _ => []

/-- Issued document of the second C3 witness run. -/
def c3d2 : Json :=
  match issue modelPrim c3Vc2 wCfg zeroAddr with
  | .ok (d, _) => d
  | .error _ => .null

/-- Proof records of the second C3 witness run. -/
def c3m2 : List Json :=
  match issue modelPrim c3Vc2 wCfg zeroAddr with
  | .ok (_, m) => m
  | .error _ => []

theorem c3_witness :
    issue modelPrim c3Vc wCfg zeroAddr = .ok (c3d, c3m) ∧
    c3m.getLast? = some (.obj [("path", .str "/"),
      ("documentHash", .str (keccak256Json modelPrim (stripEip712 c3Vc)))]) ∧
    c3m2.getLast? = c3m.getLast? := by
  refine ⟨rfl, ?_, ?_⟩
  · exact (c3_document_hash_strips_proofs modelPrim c3Vc c3Vc2 wCfg zeroAddr
      c3d c3d2 c3m c3m2 rfl).1
  · exact (c3_document_hash_strips_proofs modelPrim c3Vc c3Vc2 wCfg zeroAddr
      c3d c3d2 c3m c3m2 rfl).2 rfl rfl

/-- A root proof update does not change what a section path resolves to. -/
theorem getByPath_topUpd (p : String) (hp : p ∈ SECTION_PATHS) (sig : String)
    (doc : Json) : getByPath (updateTopProof sig doc) p = getByPath doc p := by
  rcases sectionPath_cases hp with rfl | rfl | rfl <;>
    exact getParts_topUpd sig doc _

/-- C5: schema preservation — issuance never adds a key to any proof object
(section `sProof` or root `proof`); each proof object's key list is identical
before and after issuance, and only the values of pre-existing
`type` / `sectionHash` / `proofValue` keys are overwritten. -/
theorem c5_schema_preservation (C : CryptoPrim) (vc keysCfg : Json) (vctr : String)
    (d : Json) (m : List Json) (h : issue C vc keysCfg vctr = .ok (d, m)) :
    (∀ p ∈ SECTION_PATHS,
      jsonKeys ((getByPath d p).getKeyN "sProof") =
        jsonKeys ((getByPath vc p).getKeyN "sProof") ∧
      ∀ k, k ≠ "type" → k ≠ "sectionHash" → k ≠ "proofValue" →
        ((getByPath d p).getKeyN "sProof").getKeyOpt k =
          ((getByPath vc p).getKeyN "sProof").getKeyOpt k) ∧
    (jsonKeys (d.getKeyN "proof") = jsonKeys (vc.getKeyN "proof") ∧
     ∀ k, k ≠ "type" → k ≠ "proofValue" →
       (d.getKeyN "proof").getKeyOpt k = (vc.getKeyN "proof").getKeyOpt k) := by
  obtain ⟨domainCfg, domain, keys, oid, ocomp, ocust, odoc, i2, meta, sigdoc, addr,
    _, _, _, _, _, _, _, h8, _, hd, _⟩ := issue_ok_elim h
  have hchar := issueSections_ok_char C domain (stripEip712 vc) _ _ _ _ _ h8
  constructor
  · intro p hp
    have hpath : getByPath d p = getByPath i2 p := by
      rw [hd]; exact getByPath_topUpd p hp sigdoc i2
    have hs := applyIssue_sProof C domain (stripEip712 vc)
      [("/credentialSubject/identity", oid.getD .null),
       ("/credentialSubject/compliance", ocomp.getD .null),
       ("/credentialSubject/custody", ocust.getD .null)]
      (issuePairs_mem _ _ _) vc p hp
    rw [hchar.1] at hpath
    exact ⟨by rw [hpath]; exact hs.1,
      fun k h1 h2 h3 => by rw [hpath]; exact hs.2 k h1 h2 h3⟩
  · have hproof : d.getKeyN "proof" =
        ((vc.getKeyOpt "proof").map (topProofWriter sigdoc)).getD .null := by
      rw [hd]
      show (atKey "proof" (topProofWriter sigdoc) i2).getKeyN "proof" = _
      rw [getKeyN_atKey_same, hchar.1,
        applyIssue_proofKey C domain (stripEip712 vc) _ (issuePairs_mem _ _ _) vc]
    rw [hproof, getKeyN_eq_getKeyOpt]
    cases vc.getKeyOpt "proof" with
    | none => exact ⟨rfl, fun _ _ _ => rfl⟩
    | some pf =>
        exact ⟨topProofWriter_keys sigdoc pf,
          fun k h1 h3 => topProofWriter_getKeyOpt_other sigdoc pf k h1 h3⟩

/-- C6: idempotent re-issuance — issuing an already-issued credential again
succeeds and yields exactly the same proof records (same `sectionHash`
values and the same `documentHash`) as issuing the pristine original,
because all existing proofs are stripped before hashing. -/
theorem c6_idempotent_reissue (C : CryptoPrim) (vc keysCfg : Json) (vctr : String)
    (d1 : Json) (m1 : List Json) (h : issue C vc keysCfg vctr = .ok (d1, m1)) :
    (issue C d1 keysCfg vctr).isOk = true ∧
    ∀ d2 m2, issue C d1 keysCfg vctr = .ok (d2, m2) → m2 = m1 := by
  obtain ⟨domainCfg, domain, keys, oid, ocomp, ocust, odoc, i2, meta, sigdoc, addr,
    h1, h2, h3, h4, h5, h6, h7, h8, h9, hd, hm⟩ := issue_ok_elim h
  have hLmem := issuePairs_mem (oid.getD .null) (ocomp.getD .null) (ocust.getD .null)
  have hchar := issueSections_ok_char C domain (stripEip712 vc) _ vc [] i2 meta h8
  have hstrip_i2 : stripEip712 i2 = stripEip712 vc := by
    rw [hchar.1]
    exact applyIssue_strip C domain (stripEip712 vc) _ hLmem vc
  have hstrip_d1 : stripEip712 d1 = stripEip712 vc := by
    rw [hd, stripEip712_updateTopProof, hstrip_i2]
  have hpres : ∀ q ∈ SECTION_PATHS, (getByPath d1 q).isObj = (getByPath vc q).isObj := by
    intro q hq
    rw [hd, getByPath_topUpd q hq, hchar.1]
    exact applyIssue_isObj C domain (stripEip712 vc) _ hLmem vc q hq
  obtain ⟨i2p, hB, hMeq⟩ := issueSections_ok_congr C domain (stripEip712 vc) _
    hLmem vc d1 [] i2 meta h8 hpres []
  have hmeta_eq : issueMetaFor C domain (stripEip712 vc)
      [("/credentialSubject/identity", oid.getD .null),
       ("/credentialSubject/compliance", ocomp.getD .null),
       ("/credentialSubject/custody", ocust.getD .null)] d1 = meta := by
    rw [hMeq]
    have h2c := hchar.2
    simpa using h2c.symm
  have hchar2 := issueSections_ok_char C domain (stripEip712 vc) _ d1 [] i2p _ hB
  have hstrip_i2p : stripEip712 i2p = stripEip712 vc := by
    rw [hchar2.1, applyIssue_strip C domain (stripEip712 vc) _ hLmem d1]
    exact hstrip_d1
  rw [hstrip_i2] at h9
  have h8p : issueSections C domain (stripEip712 d1)
      [("/credentialSubject/identity", oid.getD .null),
       ("/credentialSubject/compliance", ocomp.getD .null),
       ("/credentialSubject/custody", ocust.getD .null)] d1 [] =
      .ok (i2p, [] ++ issueMetaFor C domain (stripEip712 vc)
        [("/credentialSubject/identity", oid.getD .null),
         ("/credentialSubject/compliance", ocomp.getD .null),
         ("/credentialSubject/custody", ocust.getD .null)] d1) := by
    rw [hstrip_d1]
    exact hB
  have h9p : C.sign (odoc.getD .null)
      (buildDocumentTypedData domain (keccak256Json C (stripEip712 i2p))) =
        some (sigdoc, addr) := by
    rw [hstrip_i2p]
    exact h9
  have hrun := issue_ok_intro h1 h2 h3 h4 h5 h6 h7 h8p h9p
  constructor
  · rw [hrun]; rfl
  · intro d2 m2 hh
    rw [hrun] at hh
    simp only [Except.ok.injEq, Prod.mk.injEq] at hh
    rw [← hh.2, hm, hstrip_i2p, hstrip_i2]
    simp [hmeta_eq]

/-- Issued document of the first C6 witness run. -/
def c6d1 : Json :=
  match issue modelPrim c3Vc wCfg zeroAddr with
  | .ok (d, _) => d
  | .error _ => .null

/-- Proof records of the first C6 witness run. -/
def c6m1 : List Json :=
  match issue modelPrim c3Vc wCfg zeroAddr with
  | .ok (_, m) => m
  | .error _ => []

/-- Proof records of the re-issuance witness run. -/
def c6m2 : List Json :=
  match issue modelPrim c6d1 wCfg zeroAddr with
  | .ok (_, m) => m
  | .error _ => []

theorem c6_witness :
    (issue modelPrim c6d1 wCfg zeroAddr).isOk = true ∧ c6m2 = c6m1 := by
  have hthm := c6_idempotent_reissue modelPrim c3Vc wCfg zeroAddr c6d1 c6m1 rfl
  exact ⟨hthm.1, hthm.2 (match issue modelPrim c6d1 wCfg zeroAddr with
    | .ok (d, _) => d
    | .error _ => .null) c6m2 rfl⟩

/-- Credential for the C5 witness: proof templates carry custom extra
fields. -/
def c5Vc : Json :=
  .obj [("credentialSubject", .obj [("identity", .obj [("a", .num 1),
          ("sProof", .obj [("type", .str "x"), ("sectionHash", .str ""),
                           ("proofValue", .str ""), ("note", .str "keep-me")])])]),
        ("proof", .obj [("type", .str "x"), ("proofValue", .str ""),
                        ("creator", .str "alice")])]

/-- Issued document of the C5 witness run. -/
def c5d : Json :=
  match issue modelPrim c5Vc wCfg zeroAddr with
  | .ok (d, _) => d
  | .error _ => .null

/-- Proof records of the C5 witness run. -/
def c5m : List Json :=
  match issue modelPrim c5Vc wCfg zeroAddr with
  | .ok (_, m) => m
  | .error _ => []

theorem c5_witness :
    jsonKeys ((getByPath c5d "/credentialSubject/identity").getKeyN "sProof") =
      jsonKeys ((getByPath c5Vc "/credentialSubject/identity").getKeyN "sProof") ∧
    jsonKeys (c5d.getKeyN "proof") = jsonKeys (c5Vc.getKeyN "proof") ∧
    ((getByPath c5d "/credentialSubject/identity").getKeyN "sProof").getKeyOpt "note" =
      some (.str "keep-me") := by
  have hthm := c5_schema_preservation modelPrim c5Vc wCfg zeroAddr c5d c5m rfl
  refine ⟨(hthm.1 "/credentialSubject/identity" (by simp [SECTION_PATHS])).1,
    hthm.2.1, ?_⟩
  rw [(hthm.1 "/credentialSubject/identity" (by simp [SECTION_PATHS])).2 "note"
    (by decide) (by decide) (by decide)]
  rfl

/-- C9: `issue` always signs the Document typed message with the configured
document-role key, whether or not a root proof template exists: whenever the
document key cannot sign (missing or invalid), `issue` raises; and whenever
`issue` returns, its proof-records list ends with a
`\x7bpath: "/", documentHash\x7d` record. -/
theorem c9_document_signing (C : CryptoPrim) (vc keysCfg : Json) (vctr : String) :
    ((∀ t, C.sign ((keysCfg.getKeyD "keys" (.obj [])).getKeyN "document") t = none) →
      ∀ d m, issue C vc keysCfg vctr ≠ .ok (d, m)) ∧
    (∀ d m, issue C vc keysCfg vctr = .ok (d, m) →
      ∃ hash : String, m.getLast? = some (.obj [("path", .str "/"),
        ("documentHash", .str hash)])) := by
  constructor
  · intro hfail d m hok
    obtain ⟨domainCfg, domain, keys, oid, ocomp, ocust, odoc, i2, meta, sigdoc, addr,
      _, _, h3, _, _, _, h7, _, h9, _, _⟩ := issue_ok_elim hok
    have hk : keys = keysCfg.getKeyD "keys" (.obj []) := pyGetD_ok_eq h3
    have hdk : odoc.getD .null = keys.getKeyN "document" := pyGet_ok_eq h7
    rw [hdk, hk] at h9
    rw [hfail _] at h9
    exact Option.noConfusion h9
  · intro d m hok
    exact ⟨_, (issue_ok_strip hok).2⟩

/-- Empty credential for the C9 witness: no sections, no proof template. -/
def c9Vc : Json := .obj []

/-- Key config with a document key only. -/
def c9Cfg : Json := .obj [("keys", .obj [("document", .str "kd")])]

theorem c9_witness :
    ((issue modelPrim (.obj []) (.obj []) zeroAddr ≠ .ok (.null, [])) ∧
     ∃ hash : String,
       [Json.obj [("path", Json.str "/"),
         ("documentHash", Json.str "0xkeccak(\x7b\x7d)")]].getLast? =
         some (.obj [("path", .str "/"), ("documentHash", .str hash)])) := by
  constructor
  · exact (c9_document_signing modelPrim (.obj []) (.obj []) zeroAddr).1
      (fun t => rfl) .null []
  · exact (c9_document_signing modelPrim c9Vc c9Cfg zeroAddr).2 (.obj [])
      [Json.obj [("path", Json.str "/"),
        ("documentHash", Json.str "0xkeccak(\x7b\x7d)")]] rfl

/- ### C10: the document check carries no hash flag -/

/-- The domain the verifier defaults to, as a parsed value. -/
def defaultDomain712 : Eip712Domain :=
  ⟨.str "RWA-VC", "1", 1, .str "0x0000000000000000000000000000000000000000"⟩

theorem docResult_keys (pf : Json) (recovered : String) (e0 : Option Json) :
    jsonKeys (docResult pf recovered e0) = ["path", "ok", "recovered", "expected"] := rfl

theorem docResult_getKeyOpt_ok (pf : Json) (recovered : String) (e0 : Option Json) :
    (docResult pf recovered e0).getKeyOpt "ok" =
      some (.bool (secAddrOk recovered (docExpected pf e0) &&
        strEqPy "Eip712Signature2023" (pf.getKeyOpt "type"))) := rfl

theorem docResult_getKeyOpt_recovered (pf : Json) (recovered : String)
    (e0 : Option Json) :
    (docResult pf recovered e0).getKeyOpt "recovered" = some (.str recovered) := rfl

/-- C10: the document-level verification result stores no hash-match flag —
its keys are exactly `path`, `ok`, `recovered`, `expected` — and when the root
proof has no truthy `signer`, the expected map has no `document` entry, and the
stored `proofValue` recovers structurally, `ok` is true exactly when the
proof's `type` equals `Eip712Signature2023`: neither the recomputed document
hash nor the recovered signer is compared against anything. -/
theorem c10_document_result_no_hash_flag (C : CryptoPrim) (vc : Json)
    (exp : Option Json) (secs : List Json) (o : Option Json) (dom : Eip712Domain)
    (recovered : String)
    (hsecs : sectionSteps C vc (stripEip712 vc) exp SECTION_PATHS = .ok secs)
    (hget : pyGet vc "proof" = .ok o) (hobj : (o.getD .null).isObj = true)
    (hdom : parseVerifyDomain ((o.getD .null).getKeyD "domain" defaultDomainJson) =
      .ok dom)
    (hrec : recoverJ C (buildDocumentTypedData dom (keccak256Json C (stripEip712 vc)))
        ((o.getD .null).getKeyD "proofValue" (.str "")) = .ok recovered)
    (hsig : truthyOpt ((o.getD .null).getKeyOpt "signer") = false)
    (hexp : pyGet (pyOrEmptyObjOpt exp) "document" = .ok none) :
    ∃ r, verify C vc exp = .ok (secs ++ [r]) ∧
      jsonKeys r = ["path", "ok", "recovered", "expected"] ∧
      r.getKeyOpt "recovered" = some (.str recovered) ∧
      (r.getKeyOpt "ok" = some (.bool true) ↔
        (o.getD .null).getKeyOpt "type" = some (.str "Eip712Signature2023")) := by
  have hes : docExpected (o.getD .null) none = none := by
    unfold docExpected pyOrOpt
    rw [hsig]
    simp
  have hdoc := docStep_run hdom hrec hexp
  refine ⟨docResult (o.getD .null) recovered none,
    verify_intro_doc hsecs hget hobj hdoc, docResult_keys _ _ _,
    docResult_getKeyOpt_recovered _ _ _, ?_⟩
  rw [docResult_getKeyOpt_ok, hes]
  have hsa : secAddrOk recovered none = true := rfl
  rw [hsa, Bool.true_and]
  simp only [Option.some.injEq, Json.bool.injEq]
  exact strEqPy_true_iff _ _

/-- Root proof template of the C10 witness. -/
def c10Pf : Json := .obj [("type", .str "Eip712Signature2023"), ("proofValue", .str "sig:k")]

/-- Credential of the C10 witness: only a root proof. -/
def c10Vc : Json := .obj [("proof", c10Pf)]

set_option maxRecDepth 4000 in
theorem c10_witness :
    pyGet c10Vc "proof" = .ok (some c10Pf) ∧
    ∃ r, verify modelPrim c10Vc none = .ok ([] ++ [r]) ∧
      jsonKeys r = ["path", "ok", "recovered", "expected"] ∧
      r.getKeyOpt "recovered" = some (.str "0xRecoveredFromOtherMessage") ∧
      (r.getKeyOpt "ok" = some (.bool true) ↔
        c10Pf.getKeyOpt "type" = some (.str "Eip712Signature2023")) :=
  ⟨rfl, c10_document_result_no_hash_flag modelPrim c10Vc none [] (some c10Pf)
    defaultDomain712 "0xRecoveredFromOtherMessage" rfl rfl rfl rfl rfl rfl rfl⟩

/- ### C8: missing-proof handling -/

/-- C8 (corrected): a present section without a proof dict yields a failing
entry whose reason is the string `missing sProof` (not `missing proof` as the
spec claims for sections); and when the document root has no proof dict, the
result list is exactly the retained section results followed by one failing
document entry with reason `missing proof`, with no further document checks. -/
theorem c8_missing_proof_handling (C : CryptoPrim) (vc clean : Json)
    (exp : Option Json) :
    (∀ p, (getByPath vc p).isObj = true →
      ((getByPath vc p).getKeyN "sProof").isObj = false →
      sectionStep C vc clean exp p =
        .ok (some (.obj [("path", .str p), ("ok", .bool false),
          ("reason", .str "missing sProof")]))) ∧
    (∀ secs o, sectionSteps C vc (stripEip712 vc) exp SECTION_PATHS = .ok secs →
      pyGet vc "proof" = .ok o → (o.getD .null).isObj = false →
      verify C vc exp = .ok (secs ++ [.obj [("path", .str "/"), ("ok", .bool false),
        ("reason", .str "missing proof")]])) := by
  constructor
  · intro p h1 h2
    exact sectionStep_missing h1 h2
  · intro secs o h1 h2 h3
    exact verify_intro_missing h1 h2 h3

/-- Credential of the C8 examples: a present identity section with no
`sProof`, and no root proof. -/
def c8Vc : Json :=
  .obj [("credentialSubject", .obj [("identity", .obj [("a", .num 1)])])]

/-- C8 counterexample: the per-section failing entry the code emits carries
reason `missing sProof`, which differs from the claimed `missing proof`; the
concrete run shows the emitted reason. -/
theorem c8_counterexample :
    verify modelPrim c8Vc none =
      .ok [.obj [("path", .str "/credentialSubject/identity"), ("ok", .bool false),
            ("reason", .str "missing sProof")],
           .obj [("path", .str "/"), ("ok", .bool false),
            ("reason", .str "missing proof")]] ∧
    ("missing sProof" : String) ≠ "missing proof" := by
  exact ⟨rfl, by decide⟩

set_option maxRecDepth 4000 in
theorem c8_witness :
    ((getByPath c8Vc "/credentialSubject/identity").isObj = true ∧
     ((getByPath c8Vc "/credentialSubject/identity").getKeyN "sProof").isObj = false ∧
     sectionStep modelPrim c8Vc (stripEip712 c8Vc) none "/credentialSubject/identity" =
       .ok (some (.obj [("path", .str "/credentialSubject/identity"),
         ("ok", .bool false), ("reason", .str "missing sProof")]))) ∧
    (sectionSteps modelPrim c8Vc (stripEip712 c8Vc) none SECTION_PATHS =
       .ok [.obj [("path", .str "/credentialSubject/identity"), ("ok", .bool false),
         ("reason", .str "missing sProof")]] ∧
     pyGet c8Vc "proof" = .ok none ∧
     verify modelPrim c8Vc none =
       .ok ([.obj [("path", .str "/credentialSubject/identity"), ("ok", .bool false),
             ("reason", .str "missing sProof")]] ++
            [.obj [("path", .str "/"), ("ok", .bool false),
             ("reason", .str "missing proof")]])) :=
  ⟨⟨rfl, rfl, (c8_missing_proof_handling modelPrim c8Vc (stripEip712 c8Vc) none).1
      "/credentialSubject/identity" rfl rfl⟩,
   ⟨rfl, rfl, (c8_missing_proof_handling modelPrim c8Vc (stripEip712 c8Vc) none).2
      [.obj [("path", .str "/credentialSubject/identity"), ("ok", .bool false),
        ("reason", .str "missing sProof")]] none rfl rfl rfl⟩⟩

/- ### C2: what verification recovers from and what it raises on -/

theorem recoverJ_ok_of_total {C : CryptoPrim}
    (htot : ∀ t s, ∃ a, C.recover t s = some a) (t : Json) (s : String) :
    ∃ a, recoverJ C t (.str s) = .ok a := by
  obtain ⟨a, ha⟩ := htot t s
  refine ⟨a, ?_⟩
  unfold recoverJ
  show (match C.recover t s with
        | some a => (Except.ok a : Except String String)
        | none => Except.error "BadSignatureError") = Except.ok a
  rw [ha]

theorem pyGet_isObj_ok (j : Json) (k : String) (h : j.isObj = true) :
    pyGet j k = .ok (j.getKeyOpt k) := by
  cases j <;> simp_all [pyGet, Json.getKeyOpt, Json.isObj]

/-- A section check cannot raise when the proof's domain parses, the stored
`proofValue` is a string, recovery is total, and the expected map is a dict. -/
theorem sectionStep_ok_of_wf {C : CryptoPrim} (vc clean : Json) {exp : Option Json}
    (p : String) {r : String} (hrole : roleForPath p = some r)
    (htot : ∀ t s, ∃ a, C.recover t s = some a)
    (hexpo : (pyOrEmptyObjOpt exp).isObj = true)
    (hwf : (getByPath vc p).isObj = true →
      ((getByPath vc p).getKeyN "sProof").isObj = true →
      (∃ dom, parseVerifyDomain (((getByPath vc p).getKeyN "sProof").getKeyD "domain"
        defaultDomainJson) = .ok dom) ∧
      (∃ s, ((getByPath vc p).getKeyN "sProof").getKeyD "proofValue" (.str "") =
        .str s)) :
    ∃ o, sectionStep C vc clean exp p = .ok o := by
  by_cases h1 : (getByPath vc p).isObj = true
  · by_cases h2 : ((getByPath vc p).getKeyN "sProof").isObj = true
    · obtain ⟨⟨dom, hdom⟩, ⟨s, hs⟩⟩ := hwf h1 h2
      have hr : ∃ a, recoverJ C (buildSectionTypedData dom p
          (keccak256Json C (pyOrEmptyObj (getByPath clean p))))
          (((getByPath vc p).getKeyN "sProof").getKeyD "proofValue" (.str "")) =
            .ok a := by
        rw [hs]
        exact recoverJ_ok_of_total htot _ _
      obtain ⟨a, ha⟩ := hr
      exact ⟨_, sectionStep_run h1 h2 hdom ha hrole (pyGet_isObj_ok _ _ hexpo)⟩
    · exact ⟨_, sectionStep_missing h1 (by simpa using h2)⟩
  · exact ⟨_, sectionStep_absent (by simpa using h1)⟩

/-- The document check cannot raise under the same conditions. -/
theorem docStep_ok_of_wf {C : CryptoPrim} (vc : Json) {exp : Option Json} {pf : Json}
    (htot : ∀ t s, ∃ a, C.recover t s = some a)
    (hexpo : (pyOrEmptyObjOpt exp).isObj = true)
    (hdomex : ∃ dom, parseVerifyDomain (pf.getKeyD "domain" defaultDomainJson) = .ok dom)
    (hpv : ∃ s, pf.getKeyD "proofValue" (.str "") = .str s) :
    ∃ r, docStep C vc exp pf = .ok r := by
  obtain ⟨dom, hdom⟩ := hdomex
  obtain ⟨s, hs⟩ := hpv
  obtain ⟨a, ha⟩ := recoverJ_ok_of_total htot
    (buildDocumentTypedData dom (keccak256Json C (stripEip712 vc))) s
  have hrec : recoverJ C (buildDocumentTypedData dom (keccak256Json C (stripEip712 vc)))
      (pf.getKeyD "proofValue" (.str "")) = .ok a := by
    rw [hs]
    exact ha
  exact ⟨_, docStep_run hdom hrec (pyGet_isObj_ok _ _ hexpo)⟩

/-- C2 (corrected): verification returns a structured result list whenever the
input document is a dict, signature recovery is total, the expected map is a
dict, and every stored proof is recoverable in shape (its embedded domain
parses and its `proofValue` slot holds a string). Without the last condition
the claim fails: a proof object that merely lacks `proofValue` makes `verify`
raise, because the defaulted empty string is fed to signature recovery — see
the counterexample. -/
theorem c2_verify_structured (C : CryptoPrim) (vc : Json) (exp : Option Json)
    (hvc : vc.isObj = true)
    (htot : ∀ t s, ∃ a, C.recover t s = some a)
    (hexpo : (pyOrEmptyObjOpt exp).isObj = true)
    (hwf : ∀ p ∈ SECTION_PATHS, (getByPath vc p).isObj = true →
      ((getByPath vc p).getKeyN "sProof").isObj = true →
      (∃ dom, parseVerifyDomain (((getByPath vc p).getKeyN "sProof").getKeyD "domain"
        defaultDomainJson) = .ok dom) ∧
      (∃ s, ((getByPath vc p).getKeyN "sProof").getKeyD "proofValue" (.str "") =
        .str s))
    (hwfroot : ((vc.getKeyOpt "proof").getD .null).isObj = true →
      (∃ dom, parseVerifyDomain (((vc.getKeyOpt "proof").getD .null).getKeyD "domain"
        defaultDomainJson) = .ok dom) ∧
      (∃ s, ((vc.getKeyOpt "proof").getD .null).getKeyD "proofValue" (.str "") =
        .str s)) :
    ∃ res, verify C vc exp = .ok res := by
  obtain ⟨o1, h1⟩ := sectionStep_ok_of_wf vc (stripEip712 vc)
    "/credentialSubject/identity" rfl htot hexpo
    (hwf "/credentialSubject/identity" (by decide))
  obtain ⟨o2, h2⟩ := sectionStep_ok_of_wf vc (stripEip712 vc)
    "/credentialSubject/compliance" rfl htot hexpo
    (hwf "/credentialSubject/compliance" (by decide))
  obtain ⟨o3, h3⟩ := sectionStep_ok_of_wf vc (stripEip712 vc)
    "/credentialSubject/custody" rfl htot hexpo
    (hwf "/credentialSubject/custody" (by decide))
  have hsecs := sectionSteps_three h1 h2 h3
  have hget : pyGet vc "proof" = .ok (vc.getKeyOpt "proof") := pyGet_isObj_ok _ _ hvc
  by_cases hro : ((vc.getKeyOpt "proof").getD .null).isObj = true
  · obtain ⟨hdomex, hpv⟩ := hwfroot hro
    obtain ⟨r, hr⟩ := docStep_ok_of_wf vc htot hexpo hdomex hpv
    exact ⟨_, verify_intro_doc hsecs hget hro hr⟩
  · exact ⟨_, verify_intro_missing hsecs hget (by simpa using hro)⟩

/-- Credential of the C2 counterexample: a well-formed-looking proof object
that merely lacks the `proofValue` field. -/
def c2Vc : Json :=
  .obj [("credentialSubject", .obj [("identity", .obj [("a", .num 1),
    ("sProof", .obj [("type", .str "Eip712Signature2023")])])])]

set_option maxRecDepth 4000 in
/-- C2 counterexample: the input document is a dict and the section proof
object exists but has no `proofValue`; the claim says this is recorded as a
failing entry, yet `verify` raises (`BadSignatureError` propagates out of the
per-section loop), because `proof.get("proofValue", "")` hands the empty
string to signature recovery. -/
theorem c2_counterexample :
    c2Vc.isObj = true ∧
    ((getByPath c2Vc "/credentialSubject/identity").getKeyN "sProof").isObj = true ∧
    ((getByPath c2Vc "/credentialSubject/identity").getKeyN "sProof").getKeyOpt
      "proofValue" = none ∧
    verify modelPrim c2Vc none = .error "BadSignatureError" :=
  ⟨rfl, rfl, rfl, rfl⟩

/-- A primitive whose recovery is total, for the C2 witness. -/
def c2Prim : CryptoPrim where
  keccakHex s := "0xkeccak(" ++ s ++ ")"
  sign k t :=
    match k, t with
    | .str ks, _ => some ("sig:" ++ ks, "addr:" ++ ks)
    | _, _ => none
  recover _ s := some ("rec:" ++ s)
  privToAddr k :=
    match k with
    | .str ks => "addr:" ++ ks
    | _ => ""

/-- Credential of the C2 witness: full proof templates everywhere. -/
def c2wVc : Json :=
  .obj [("credentialSubject", .obj [("identity", .obj [("a", .num 1),
          ("sProof", .obj [("type", .str "Eip712Signature2023"),
            ("proofValue", .str "zz")])])]),
        ("proof", .obj [("type", .str "Eip712Signature2023"),
          ("proofValue", .str "yy")])]

set_option maxRecDepth 4000 in
theorem c2_witness :
    c2wVc.isObj = true ∧
    (∀ t s, ∃ a, c2Prim.recover t s = some a) ∧
    ∃ res, verify c2Prim c2wVc none = .ok res :=
  ⟨rfl, fun _ s => ⟨"rec:" ++ s, rfl⟩,
   c2_verify_structured c2Prim c2wVc none rfl (fun _ s => ⟨"rec:" ++ s, rfl⟩) rfl
     (by
       intro p hp
       rcases sectionPath_cases hp with rfl | rfl | rfl
       · intro _ _
         exact ⟨⟨defaultDomain712, rfl⟩, ⟨"zz", rfl⟩⟩
       · intro h
         exact absurd h (by decide)
       · intro h
         exact absurd h (by decide))
     (fun _ => ⟨⟨defaultDomain712, rfl⟩, ⟨"yy", rfl⟩⟩)⟩

/- ### C4: tamper detection and locality -/

/-- The per-section check as a function of the section value alone (the
verifier reads the section from the document and its cleaned counterpart from
the stripped document, which at a section path is the same section with its
`sProof` dropped). -/
def sectionLocal (C : CryptoPrim) (sec : Json) (expected : Option Json)
    (path : String) : Except String (Option Json) :=
  if sec.isObj then
    let proof := sec.getKeyN "sProof"
    if proof.isObj then do
      let sectionClean := pyOrEmptyObj (dropSProof sec)
      let computedHash := keccak256Json C sectionClean
      let domainDict := proof.getKeyD "domain" defaultDomainJson
      let domain ← parseVerifyDomain domainDict
      let typed := buildSectionTypedData domain path computedHash
      let signature := proof.getKeyD "proofValue" (.str "")
      let recovered ← recoverJ C typed signature
      let hashOk := strEqPy computedHash (proof.getKeyOpt "sectionHash")
      let role := roleForPath path
      let expectedFromKeys ←
        match role with
        | some r => pyGet (pyOrEmptyObjOpt expected) r
        | none => pure none
      let expectedSigner := pyOrOpt (proof.getKeyOpt "signer") expectedFromKeys
      let addrOk :=
        if truthyOpt expectedSigner then
          pyLower recovered == pyLower (pyStr (expectedSigner.getD .null))
        else true
      let typeOk := strEqPy "Eip712Signature2023" (proof.getKeyOpt "type")
      .ok (some (.obj [("path", .str path),
                       ("ok", .bool (hashOk && addrOk && typeOk)),
                       ("hash_ok", .bool hashOk),
                       ("addr_ok", .bool addrOk),
                       ("type_ok", .bool typeOk),
                       ("recovered", .str recovered),
                       ("expected_signer", expectedSigner.getD .null),
                       ("role", match role with | some r => .str r | none => .null)]))
    else
      .ok (some (.obj [("path", .str path), ("ok", .bool false),
                       ("reason", .str "missing sProof")]))
  else .ok none

/-- On the stripped document the section check is a function of the section
value alone. -/
theorem sectionStep_strip_local (C : CryptoPrim) (vc : Json) (exp : Option Json)
    (p : String) (hp : p ∈ SECTION_PATHS) :
    sectionStep C vc (stripEip712 vc) exp p = sectionLocal C (getByPath vc p) exp p := by
  by_cases h1 : (getByPath vc p).isObj = true
  · have hstrip : getByPath (stripEip712 vc) p = dropSProof (getByPath vc p) := by
      rcases sectionPath_cases hp with rfl | rfl | rfl
      · exact getParts_strip vc "identity" (Or.inl rfl) h1
      · exact getParts_strip vc "compliance" (Or.inr (Or.inl rfl)) h1
      · exact getParts_strip vc "custody" (Or.inr (Or.inr rfl)) h1
    unfold sectionStep sectionLocal
    rw [hstrip]
  · unfold sectionStep sectionLocal
    simp only [h1, Bool.false_eq_true, if_false]

theorem sectionResult_getKeyOpt_path (C : CryptoPrim) (clean : Json) (p : String)
    (pf : Json) (recovered : String) (efk : Option Json) :
    (sectionResult C clean p pf recovered efk).getKeyOpt "path" = some (.str p) := rfl

theorem sectionResult_getKeyOpt_ok (C : CryptoPrim) (clean : Json) (p : String)
    (pf : Json) (recovered : String) (efk : Option Json) :
    (sectionResult C clean p pf recovered efk).getKeyOpt "ok" =
      some (.bool (secHashOk C clean p pf &&
        secAddrOk recovered (secExpected pf efk) && secTypeOk pf)) := rfl

theorem sectionResult_getKeyOpt_hash (C : CryptoPrim) (clean : Json) (p : String)
    (pf : Json) (recovered : String) (efk : Option Json) :
    (sectionResult C clean p pf recovered efk).getKeyOpt "hash_ok" =
      some (.bool (secHashOk C clean p pf)) := rfl

/-- A stored section hash different from the recomputed one drives the hash
flag to false. -/
theorem secHashOk_eq_false {C : CryptoPrim} {clean : Json} {p : String} {pf : Json}
    {h0 : String} (hsh : pf.getKeyOpt "sectionHash" = some (.str h0))
    (hne : keccak256Json C (pyOrEmptyObj (getByPath clean p)) ≠ h0) :
    secHashOk C clean p pf = false := by
  unfold secHashOk
  rw [hsh]
  cases hb : strEqPy (keccak256Json C (pyOrEmptyObj (getByPath clean p)))
      (some (.str h0)) with
  | false => rfl
  | true =>
      have h2 := (strEqPy_true_iff _ _).mp hb
      injection h2 with h3
      injection h3 with h4
      exact absurd h4.symm hne

/-- C4: tamper detection — when the recomputed hash of a section's (stripped)
content differs from the `sectionHash` stored in its proof, the section's
hash flag and overall ok flag are false — and locality: on the stripped
document the section check reads nothing outside the section, so two
documents that agree at a section path verify that section identically. -/
theorem c4_tamper_and_locality (C : CryptoPrim) (exp : Option Json) :
    (∀ (vc : Json) (p : String) (dom : Eip712Domain) (recovered : String)
       (efk : Option Json) (r h0 : String),
      roleForPath p = some r →
      (getByPath vc p).isObj = true →
      ((getByPath vc p).getKeyN "sProof").isObj = true →
      parseVerifyDomain (((getByPath vc p).getKeyN "sProof").getKeyD "domain"
        defaultDomainJson) = .ok dom →
      recoverJ C (buildSectionTypedData dom p
          (keccak256Json C (pyOrEmptyObj (getByPath (stripEip712 vc) p))))
        (((getByPath vc p).getKeyN "sProof").getKeyD "proofValue" (.str "")) =
          .ok recovered →
      pyGet (pyOrEmptyObjOpt exp) r = .ok efk →
      ((getByPath vc p).getKeyN "sProof").getKeyOpt "sectionHash" =
        some (.str h0) →
      keccak256Json C (pyOrEmptyObj (getByPath (stripEip712 vc) p)) ≠ h0 →
      ∃ res, sectionStep C vc (stripEip712 vc) exp p = .ok (some res) ∧
        res.getKeyOpt "hash_ok" = some (.bool false) ∧
        res.getKeyOpt "ok" = some (.bool false)) ∧
    (∀ (w1 w2 : Json) (p : String), p ∈ SECTION_PATHS →
      getByPath w1 p = getByPath w2 p →
      sectionStep C w1 (stripEip712 w1) exp p =
        sectionStep C w2 (stripEip712 w2) exp p) := by
  constructor
  · intro vc p dom recovered efk r h0 hrole h1 h2 hdom hrec hexp hsh hne
    have hf := secHashOk_eq_false hsh hne
    refine ⟨_, sectionStep_run h1 h2 hdom hrec hrole hexp, ?_, ?_⟩
    · rw [sectionResult_getKeyOpt_hash, hf]
    · rw [sectionResult_getKeyOpt_ok, hf, Bool.false_and, Bool.false_and]
  · intro w1 w2 p hp h
    rw [sectionStep_strip_local C w1 exp p hp, sectionStep_strip_local C w2 exp p hp, h]

/-- Tampered credential of the C4 witness: content says 2, stored hash is of
content 1. -/
def c4Vc : Json :=
  .obj [("credentialSubject", .obj [("identity", .obj [("a", .num 2),
    ("sProof", .obj [("type", .str "Eip712Signature2023"),
      ("sectionHash", .str "0xkeccak(\x7b\"a\":1\x7d)"),
      ("proofValue", .str "sig:k")])])])]

/-- A second credential of the C4 witness: agrees with `c4Vc` at the identity
section, differs elsewhere. -/
def c4Vc2 : Json :=
  .obj [("credentialSubject", .obj [("identity", .obj [("a", .num 2),
          ("sProof", .obj [("type", .str "Eip712Signature2023"),
            ("sectionHash", .str "0xkeccak(\x7b\"a\":1\x7d)"),
            ("proofValue", .str "sig:k")])]),
        ("custody", .obj [("c", .num 3)])]),
        ("other", .num 5)]

set_option maxRecDepth 8000 in
theorem c4_witness :
    (keccak256Json modelPrim (pyOrEmptyObj
        (getByPath (stripEip712 c4Vc) "/credentialSubject/identity")) ≠
      "0xkeccak(\x7b\"a\":1\x7d)") ∧
    (∃ res, sectionStep modelPrim c4Vc (stripEip712 c4Vc) none
        "/credentialSubject/identity" = .ok (some res) ∧
      res.getKeyOpt "hash_ok" = some (.bool false) ∧
      res.getKeyOpt "ok" = some (.bool false)) ∧
    (getByPath c4Vc "/credentialSubject/identity" =
       getByPath c4Vc2 "/credentialSubject/identity" ∧
     sectionStep modelPrim c4Vc (stripEip712 c4Vc) none "/credentialSubject/identity" =
       sectionStep modelPrim c4Vc2 (stripEip712 c4Vc2) none
         "/credentialSubject/identity") :=
  ⟨by decide,
   (c4_tamper_and_locality modelPrim none).1 c4Vc "/credentialSubject/identity"
     defaultDomain712 "0xRecoveredFromOtherMessage" none "identity"
     "0xkeccak(\x7b\"a\":1\x7d)" rfl rfl rfl rfl rfl rfl rfl (by decide),
   ⟨rfl, (c4_tamper_and_locality modelPrim none).2 c4Vc c4Vc2
     "/credentialSubject/identity" (by decide) rfl⟩⟩

/- ### C1: reading the issued document back -/

theorem getParts_updAt_ne_nm (n m : String) (h : m ≠ n) (U : Json → Json) (d : Json) :
    getParts (updateAt ["credentialSubject", n] U d) ["credentialSubject", m] =
      getParts d ["credentialSubject", m] := by
  rw [updateAt_two]
  exact getParts_sectionUpd_ne n m h U d

theorem getParts_updAt_read_nm (n : String) (U : Json → Json) (d : Json)
    (h : (getParts d ["credentialSubject", n]).isObj = true) :
    getParts (updateAt ["credentialSubject", n] U d) ["credentialSubject", n] =
      U (getParts d ["credentialSubject", n]) := by
  rw [updateAt_two]
  exact getParts_sectionUpd_read n U d h

theorem getByPath_updAt_ne {p q : String} (hp : p ∈ SECTION_PATHS)
    (hq : q ∈ SECTION_PATHS) (hne : p ≠ q) (U : Json → Json) (d : Json) :
    getByPath (updateAt (pathParts p) U d) q = getByPath d q := by
  rcases sectionPath_cases hp with rfl | rfl | rfl <;>
    rcases sectionPath_cases hq with rfl | rfl | rfl <;>
    first
    | exact absurd rfl hne
    | exact getParts_updAt_ne_nm _ _ (by decide) U d

theorem getByPath_updAt_read {p : String} (hp : p ∈ SECTION_PATHS)
    (U : Json → Json) (d : Json) (h : (getByPath d p).isObj = true) :
    getByPath (updateAt (pathParts p) U d) p = U (getByPath d p) := by
  rcases sectionPath_cases hp with rfl | rfl | rfl <;>
    exact getParts_updAt_read_nm _ U d h

/-- The loop leaves a section untouched when no visited pair names it. -/
theorem applyIssue_tail_ne (C : CryptoPrim) (domain : Eip712Domain) (clean : Json) :
    ∀ L : List (String × Json), (∀ pk ∈ L, pk.1 ∈ SECTION_PATHS) →
    ∀ q, q ∈ SECTION_PATHS → (∀ pk ∈ L, pk.1 ≠ q) →
    ∀ d : Json, getByPath (applyIssue C domain clean L d) q = getByPath d q := by
  intro L
  induction L with
  | nil => intro _ q _ _ d; rfl
  | cons pk rest ih =>
      obtain ⟨p, k⟩ := pk
      intro hL q hq hne d
      by_cases hpres : (getByPath d p).isObj = true
      · rw [show applyIssue C domain clean ((p, k) :: rest) d =
            applyIssue C domain clean rest
              (updateAt (pathParts p)
                (updateSectionProof (sectionHashAt C clean p)
                  (sigOf C k (buildSectionTypedData domain p (sectionHashAt C clean p)))) d)
            from by simp only [applyIssue, hpres, if_true]]
        rw [ih (fun r hr => hL r (List.mem_cons_of_mem _ hr)) q hq
          (fun r hr => hne r (List.mem_cons_of_mem _ hr))]
        exact getByPath_updAt_ne (hL (p, k) (List.mem_cons_self _ _)) hq
          (hne (p, k) (List.mem_cons_self _ _)) _ d
      · rw [show applyIssue C domain clean ((p, k) :: rest) d =
            applyIssue C domain clean rest d
            from by simp only [applyIssue, hpres, if_false, Bool.false_eq_true]]
        exact ih (fun r hr => hL r (List.mem_cons_of_mem _ hr)) q hq
          (fun r hr => hne r (List.mem_cons_of_mem _ hr)) d

theorem pairs1_mem (b : Json) :
    ∀ pk ∈ [("/credentialSubject/custody", b)], pk.1 ∈ SECTION_PATHS := by
  intro pk hpk
  rcases List.mem_cons.mp hpk with rfl | h2
  · show "/credentialSubject/custody" ∈ SECTION_PATHS
    decide
  · exact absurd h2 (List.not_mem_nil _)

theorem pairs2_mem (a b : Json) :
    ∀ pk ∈ [("/credentialSubject/compliance", a), ("/credentialSubject/custody", b)],
      pk.1 ∈ SECTION_PATHS := by
  intro pk hpk
  rcases List.mem_cons.mp hpk with rfl | h2
  · show "/credentialSubject/compliance" ∈ SECTION_PATHS
    decide
  · exact pairs1_mem b pk h2

theorem pairs1_ne_comp (b : Json) :
    ∀ pk ∈ [("/credentialSubject/custody", b)],
      pk.1 ≠ "/credentialSubject/compliance" := by
  intro pk hpk
  rcases List.mem_cons.mp hpk with rfl | h2
  · show "/credentialSubject/custody" ≠ "/credentialSubject/compliance"
    decide
  · exact absurd h2 (List.not_mem_nil _)

theorem pairs2_ne_id (a b : Json) :
    ∀ pk ∈ [("/credentialSubject/compliance", a), ("/credentialSubject/custody", b)],
      pk.1 ≠ "/credentialSubject/identity" := by
  intro pk hpk
  rcases List.mem_cons.mp hpk with rfl | h2
  · show "/credentialSubject/compliance" ≠ "/credentialSubject/identity"
    decide
  · rcases List.mem_cons.mp h2 with rfl | h3
    · show "/credentialSubject/custody" ≠ "/credentialSubject/identity"
      decide
    · exact absurd h3 (List.not_mem_nil _)

/-- Reading the last visited section. -/
theorem applyIssue_pairs1_read (C : CryptoPrim) (domain : Eip712Domain) (clean : Json)
    (kcust : Json) (d : Json) :
    getByPath (applyIssue C domain clean [("/credentialSubject/custody", kcust)] d)
        "/credentialSubject/custody" =
      if (getByPath d "/credentialSubject/custody").isObj then
        updateSectionProof (sectionHashAt C clean "/credentialSubject/custody")
          (sigOf C kcust (buildSectionTypedData domain "/credentialSubject/custody"
            (sectionHashAt C clean "/credentialSubject/custody")))
          (getByPath d "/credentialSubject/custody")
      else getByPath d "/credentialSubject/custody" := by
  by_cases h3 : (getByPath d "/credentialSubject/custody").isObj = true
  · rw [show applyIssue C domain clean [("/credentialSubject/custody", kcust)] d =
        updateAt (pathParts "/credentialSubject/custody")
          (updateSectionProof (sectionHashAt C clean "/credentialSubject/custody")
            (sigOf C kcust (buildSectionTypedData domain "/credentialSubject/custody"
              (sectionHashAt C clean "/credentialSubject/custody")))) d
        from by simp only [applyIssue, h3, if_true]]
    rw [getByPath_updAt_read (by decide) _ d h3, if_pos h3]
  · rw [show applyIssue C domain clean [("/credentialSubject/custody", kcust)] d = d
        from by simp only [applyIssue, h3, if_false, Bool.false_eq_true]]
    rw [if_neg h3]

/-- Reading either of the last two visited sections. -/
theorem applyIssue_pairs2_read (C : CryptoPrim) (domain : Eip712Domain) (clean : Json)
    (kcomp kcust : Json) (d : Json) (q : String) (k : Json)
    (hqk : (q, k) ∈ [("/credentialSubject/compliance", kcomp),
                     ("/credentialSubject/custody", kcust)]) :
    getByPath (applyIssue C domain clean
        [("/credentialSubject/compliance", kcomp),
         ("/credentialSubject/custody", kcust)] d) q =
      if (getByPath d q).isObj then
        updateSectionProof (sectionHashAt C clean q)
          (sigOf C k (buildSectionTypedData domain q (sectionHashAt C clean q)))
          (getByPath d q)
      else getByPath d q := by
  simp only [List.mem_cons, List.not_mem_nil, or_false, Prod.mk.injEq] at hqk
  rcases hqk with ⟨rfl, hk⟩ | ⟨rfl, hk⟩
  · rw [hk]
    by_cases h2 : (getByPath d "/credentialSubject/compliance").isObj = true
    · rw [show applyIssue C domain clean
            [("/credentialSubject/compliance", kcomp),
             ("/credentialSubject/custody", kcust)] d =
          applyIssue C domain clean [("/credentialSubject/custody", kcust)]
            (updateAt (pathParts "/credentialSubject/compliance")
              (updateSectionProof (sectionHashAt C clean "/credentialSubject/compliance")
                (sigOf C kcomp (buildSectionTypedData domain
                  "/credentialSubject/compliance"
                  (sectionHashAt C clean "/credentialSubject/compliance")))) d)
          from by simp only [applyIssue, h2, if_true]]
      rw [applyIssue_tail_ne C domain clean [("/credentialSubject/custody", kcust)]
        (pairs1_mem kcust) "/credentialSubject/compliance" (by decide)
        (pairs1_ne_comp kcust) _]
      rw [getByPath_updAt_read (by decide) _ d h2, if_pos h2]
    · rw [show applyIssue C domain clean
            [("/credentialSubject/compliance", kcomp),
             ("/credentialSubject/custody", kcust)] d =
          applyIssue C domain clean [("/credentialSubject/custody", kcust)] d
          from by simp only [applyIssue, h2, if_false, Bool.false_eq_true]]
      rw [applyIssue_tail_ne C domain clean [("/credentialSubject/custody", kcust)]
        (pairs1_mem kcust) "/credentialSubject/compliance" (by decide)
        (pairs1_ne_comp kcust) d]
      rw [if_neg h2]
  · rw [hk]
    by_cases h2 : (getByPath d "/credentialSubject/compliance").isObj = true
    · rw [show applyIssue C domain clean
            [("/credentialSubject/compliance", kcomp),
             ("/credentialSubject/custody", kcust)] d =
          applyIssue C domain clean [("/credentialSubject/custody", kcust)]
            (updateAt (pathParts "/credentialSubject/compliance")
              (updateSectionProof (sectionHashAt C clean "/credentialSubject/compliance")
                (sigOf C kcomp (buildSectionTypedData domain
                  "/credentialSubject/compliance"
                  (sectionHashAt C clean "/credentialSubject/compliance")))) d)
          from by simp only [applyIssue, h2, if_true]]
      rw [applyIssue_pairs1_read C domain clean kcust _]
      rw [getByPath_updAt_ne (by decide) (by decide) (by decide) _ d]
    · rw [show applyIssue C domain clean
            [("/credentialSubject/compliance", kcomp),
             ("/credentialSubject/custody", kcust)] d =
          applyIssue C domain clean [("/credentialSubject/custody", kcust)] d
          from by simp only [applyIssue, h2, if_false, Bool.false_eq_true]]
      exact applyIssue_pairs1_read C domain clean kcust d

/-- Reading any visited section through the whole issuance loop. -/
theorem applyIssue_pairs_read (C : CryptoPrim) (domain : Eip712Domain) (clean : Json)
    (kid kcomp kcust : Json) (d : Json) (q : String) (k : Json)
    (hqk : (q, k) ∈ [("/credentialSubject/identity", kid),
                     ("/credentialSubject/compliance", kcomp),
                     ("/credentialSubject/custody", kcust)]) :
    getByPath (applyIssue C domain clean
        [("/credentialSubject/identity", kid),
         ("/credentialSubject/compliance", kcomp),
         ("/credentialSubject/custody", kcust)] d) q =
      if (getByPath d q).isObj then
        updateSectionProof (sectionHashAt C clean q)
          (sigOf C k (buildSectionTypedData domain q (sectionHashAt C clean q)))
          (getByPath d q)
      else getByPath d q := by
  simp only [List.mem_cons, List.not_mem_nil, or_false, Prod.mk.injEq] at hqk
  rcases hqk with ⟨rfl, hk⟩ | ⟨rfl, hk⟩ | ⟨rfl, hk⟩
  · rw [hk]
    by_cases h1 : (getByPath d "/credentialSubject/identity").isObj = true
    · rw [show applyIssue C domain clean
            [("/credentialSubject/identity", kid),
             ("/credentialSubject/compliance", kcomp),
             ("/credentialSubject/custody", kcust)] d =
          applyIssue C domain clean
            [("/credentialSubject/compliance", kcomp),
             ("/credentialSubject/custody", kcust)]
            (updateAt (pathParts "/credentialSubject/identity")
              (updateSectionProof (sectionHashAt C clean "/credentialSubject/identity")
                (sigOf C kid (buildSectionTypedData domain
                  "/credentialSubject/identity"
                  (sectionHashAt C clean "/credentialSubject/identity")))) d)
          from by simp only [applyIssue, h1, if_true]]
      rw [applyIssue_tail_ne C domain clean
        [("/credentialSubject/compliance", kcomp), ("/credentialSubject/custody", kcust)]
        (pairs2_mem kcomp kcust) "/credentialSubject/identity" (by decide)
        (pairs2_ne_id kcomp kcust) _]
      rw [getByPath_updAt_read (by decide) _ d h1, if_pos h1]
    · rw [show applyIssue C domain clean
            [("/credentialSubject/identity", kid),
             ("/credentialSubject/compliance", kcomp),
             ("/credentialSubject/custody", kcust)] d =
          applyIssue C domain clean
            [("/credentialSubject/compliance", kcomp),
             ("/credentialSubject/custody", kcust)] d
          from by simp only [applyIssue, h1, if_false, Bool.false_eq_true]]
      rw [applyIssue_tail_ne C domain clean
        [("/credentialSubject/compliance", kcomp), ("/credentialSubject/custody", kcust)]
        (pairs2_mem kcomp kcust) "/credentialSubject/identity" (by decide)
        (pairs2_ne_id kcomp kcust) d]
      rw [if_neg h1]
  · rw [hk]
    by_cases h1 : (getByPath d "/credentialSubject/identity").isObj = true
    · rw [show applyIssue C domain clean
            [("/credentialSubject/identity", kid),
             ("/credentialSubject/compliance", kcomp),
             ("/credentialSubject/custody", kcust)] d =
          applyIssue C domain clean
            [("/credentialSubject/compliance", kcomp),
             ("/credentialSubject/custody", kcust)]
            (updateAt (pathParts "/credentialSubject/identity")
              (updateSectionProof (sectionHashAt C clean "/credentialSubject/identity")
                (sigOf C kid (buildSectionTypedData domain
                  "/credentialSubject/identity"
                  (sectionHashAt C clean "/credentialSubject/identity")))) d)
          from by simp only [applyIssue, h1, if_true]]
      rw [applyIssue_pairs2_read C domain clean kcomp kcust _
        "/credentialSubject/compliance" kcomp (List.mem_cons_self _ _)]
      rw [getByPath_updAt_ne (by decide) (by decide) (by decide) _ d]
    · rw [show applyIssue C domain clean
            [("/credentialSubject/identity", kid),
             ("/credentialSubject/compliance", kcomp),
             ("/credentialSubject/custody", kcust)] d =
          applyIssue C domain clean
            [("/credentialSubject/compliance", kcomp),
             ("/credentialSubject/custody", kcust)] d
          from by simp only [applyIssue, h1, if_false, Bool.false_eq_true]]
      exact applyIssue_pairs2_read C domain clean kcomp kcust d
        "/credentialSubject/compliance" kcomp (List.mem_cons_self _ _)
  · rw [hk]
    by_cases h1 : (getByPath d "/credentialSubject/identity").isObj = true
    · rw [show applyIssue C domain clean
            [("/credentialSubject/identity", kid),
             ("/credentialSubject/compliance", kcomp),
             ("/credentialSubject/custody", kcust)] d =
          applyIssue C domain clean
            [("/credentialSubject/compliance", kcomp),
             ("/credentialSubject/custody", kcust)]
            (updateAt (pathParts "/credentialSubject/identity")
              (updateSectionProof (sectionHashAt C clean "/credentialSubject/identity")
                (sigOf C kid (buildSectionTypedData domain
                  "/credentialSubject/identity"
                  (sectionHashAt C clean "/credentialSubject/identity")))) d)
          from by simp only [applyIssue, h1, if_true]]
      rw [applyIssue_pairs2_read C domain clean kcomp kcust _
        "/credentialSubject/custody" kcust
        (List.mem_cons_of_mem _ (List.mem_cons_self _ _))]
      rw [getByPath_updAt_ne (by decide) (by decide) (by decide) _ d]
    · rw [show applyIssue C domain clean
            [("/credentialSubject/identity", kid),
             ("/credentialSubject/compliance", kcomp),
             ("/credentialSubject/custody", kcust)] d =
          applyIssue C domain clean
            [("/credentialSubject/compliance", kcomp),
             ("/credentialSubject/custody", kcust)] d
          from by simp only [applyIssue, h1, if_false, Bool.false_eq_true]]
      exact applyIssue_pairs2_read C domain clean kcomp kcust d
        "/credentialSubject/custody" kcust
        (List.mem_cons_of_mem _ (List.mem_cons_self _ _))

theorem secAddrOk_self (a : String) : secAddrOk a (some (.str a)) = true := by
  unfold secAddrOk
  by_cases h : truthyOpt (some (.str a)) = true
  · rw [if_pos h]
    show (pyLower a == pyLower a) = true
    simp
  · rw [if_neg h]

theorem parseVerifyDomain_default :
    parseVerifyDomain defaultDomainJson = .ok defaultDomain712 := rfl

theorem recoverJ_str {C : CryptoPrim} {t : Json} {s a : String}
    (h : C.recover t s = some a) : recoverJ C t (.str s) = .ok a := by
  unfold recoverJ
  show (match C.recover t s with
        | some a => (Except.ok a : Except String String)
        | none => Except.error "BadSignatureError") = _
  rw [h]

theorem docResult_getKeyOpt_path (pf : Json) (recovered : String) (e0 : Option Json) :
    (docResult pf recovered e0).getKeyOpt "path" = some (.str "/") := rfl

/-- A section update does not change whether the document root is a dict. -/
theorem updateAt_isObj_sec (p : String) (hp : p ∈ SECTION_PATHS) (U : Json → Json)
    (d : Json) : (updateAt (pathParts p) U d).isObj = d.isObj := by
  rcases sectionPath_cases hp with rfl | rfl | rfl <;> exact atKey_isObj _ _ d

/-- The issuance loop does not change whether the document root is a dict. -/
theorem applyIssue_isObj_root (C : CryptoPrim) (domain : Eip712Domain) (clean : Json) :
    ∀ L : List (String × Json), (∀ pk ∈ L, pk.1 ∈ SECTION_PATHS) →
    ∀ d : Json, (applyIssue C domain clean L d).isObj = d.isObj := by
  intro L
  induction L with
  | nil => intro _ d; rfl
  | cons pk rest ih =>
      obtain ⟨p, k⟩ := pk
      intro hL d
      by_cases hpres : (getByPath d p).isObj = true
      · rw [show applyIssue C domain clean ((p, k) :: rest) d =
            applyIssue C domain clean rest
              (updateAt (pathParts p)
                (updateSectionProof (sectionHashAt C clean p)
                  (sigOf C k (buildSectionTypedData domain p (sectionHashAt C clean p)))) d)
            from by simp only [applyIssue, hpres, if_true]]
        rw [ih (fun r hr => hL r (List.mem_cons_of_mem _ hr))]
        exact updateAt_isObj_sec p (hL (p, k) (List.mem_cons_self _ _)) _ d
      · rw [show applyIssue C domain clean ((p, k) :: rest) d =
            applyIssue C domain clean rest d
            from by simp only [applyIssue, hpres, if_false, Bool.false_eq_true]]
        exact ih (fun r hr => hL r (List.mem_cons_of_mem _ hr)) d

/-- The key the issuer reads for a role out of the config. -/
def cfgKey (keysCfg : Json) (r : String) : Json :=
  (keysCfg.getKeyD "keys" (.obj [])).getKeyN r

/-- How the verifier checks one section of a document issued over it: absent
sections are skipped; present sections (carrying a full proof template with no
embedded domain or signer) verify with every flag true when the signing
domain was the verifier's default, recovery inverts signing, and the expected
signer is the key's derived identity. -/
theorem issued_sectionStep (C : CryptoPrim) (vc : Json) (exp : Option Json)
    (q : String) (r : String) (k : Json) (d : Json)
    (hrole : roleForPath q = some r)
    (hstr : stripEip712 d = stripEip712 vc)
    (hval : getByPath d q = if (getByPath vc q).isObj then
        updateSectionProof (sectionHashAt C (stripEip712 vc) q)
          (sigOf C k (buildSectionTypedData defaultDomain712 q
            (sectionHashAt C (stripEip712 vc) q)))
          (getByPath vc q) else getByPath vc q)
    (hcr : ∀ t, C.recover t (sigOf C k t) = some (C.privToAddr k))
    (hx : pyGet (pyOrEmptyObjOpt exp) r = .ok (some (.str (C.privToAddr k))))
    (htmpl : (getByPath vc q).isObj = true →
      ∃ pf, (getByPath vc q).getKeyOpt "sProof" = some pf ∧ pf.isObj = true ∧
        (pf.getKeyOpt "type").isSome = true ∧
        (pf.getKeyOpt "sectionHash").isSome = true ∧
        (pf.getKeyOpt "proofValue").isSome = true ∧
        pf.getKeyOpt "domain" = none ∧ pf.getKeyOpt "signer" = none) :
    ((getByPath vc q).isObj = false →
      sectionStep C d (stripEip712 d) exp q = .ok none) ∧
    ((getByPath vc q).isObj = true → ∃ rj,
      sectionStep C d (stripEip712 d) exp q = .ok (some rj) ∧
      rj.getKeyOpt "path" = some (.str q) ∧
      rj.getKeyOpt "ok" = some (.bool true)) := by
  constructor
  · intro habs
    apply sectionStep_absent
    rw [hval, if_neg (by simp [habs])]
    exact habs
  · intro hpres
    obtain ⟨pf, hpf, hpfobj, hty, hsh, hpv, hdm, hsg⟩ := htmpl hpres
    have hdq : getByPath d q =
        atKey "sProof" (sectionProofWriter (sectionHashAt C (stripEip712 vc) q)
          (sigOf C k (buildSectionTypedData defaultDomain712 q
            (sectionHashAt C (stripEip712 vc) q)))) (getByPath vc q) := by
      rw [hval, if_pos hpres]
      rfl
    have hsec : (getByPath d q).isObj = true := by
      rw [hdq, atKey_isObj]
      exact hpres
    have hproof : (getByPath d q).getKeyN "sProof" =
        sectionProofWriter (sectionHashAt C (stripEip712 vc) q)
          (sigOf C k (buildSectionTypedData defaultDomain712 q
            (sectionHashAt C (stripEip712 vc) q))) pf := by
      rw [hdq, getKeyN_atKey_same, hpf]
      rfl
    have hpobj : ((getByPath d q).getKeyN "sProof").isObj = true := by
      rw [hproof, sectionProofWriter_isObj]
      exact hpfobj
    have hA : parseVerifyDomain (((getByPath d q).getKeyN "sProof").getKeyD "domain"
        defaultDomainJson) = .ok defaultDomain712 := by
      rw [hproof, getKeyD_eq_getKeyOpt,
        sectionProofWriter_getKeyOpt_other _ _ _ _ (by decide) (by decide) (by decide),
        hdm]
      exact parseVerifyDomain_default
    have hB : recoverJ C (buildSectionTypedData defaultDomain712 q
        (keccak256Json C (pyOrEmptyObj (getByPath (stripEip712 d) q))))
        (((getByPath d q).getKeyN "sProof").getKeyD "proofValue" (.str "")) =
          .ok (C.privToAddr k) := by
      rw [hproof, getKeyD_eq_getKeyOpt,
        sectionProofWriter_proofValue _ _ _ hpfobj hpv, hstr]
      exact recoverJ_str (hcr _)
    refine ⟨_, sectionStep_run hsec hpobj hA hB hrole hx,
      sectionResult_getKeyOpt_path _ _ _ _ _ _, ?_⟩
    rw [sectionResult_getKeyOpt_ok]
    have hHf : secHashOk C (stripEip712 d) q ((getByPath d q).getKeyN "sProof") = true := by
      unfold secHashOk
      rw [hstr, hproof, sectionProofWriter_sectionHash _ _ _ hpfobj hsh]
      exact strEqPy_same _
    have hEx : secExpected ((getByPath d q).getKeyN "sProof")
        (some (.str (C.privToAddr k))) = some (.str (C.privToAddr k)) := by
      unfold secExpected
      rw [hproof,
        sectionProofWriter_getKeyOpt_other _ _ _ _ (by decide) (by decide) (by decide),
        hsg]
      rfl
    have hAf : secAddrOk (C.privToAddr k) (secExpected ((getByPath d q).getKeyN "sProof")
        (some (.str (C.privToAddr k)))) = true := by
      rw [hEx]
      exact secAddrOk_self _
    have hTf : secTypeOk ((getByPath d q).getKeyN "sProof") = true := by
      unfold secTypeOk
      rw [hproof, sectionProofWriter_type _ _ _ hpfobj hty]
      exact strEqPy_same _
    rw [hHf, hAf, hTf]
    rfl

/-- C1 (corrected): round-trip holds only when the configured EIP-712 domain
resolves to the verifier's hard-coded default (`RWA-VC`/`1`/`1`/zero address),
because `issue` never embeds the signing domain into any proof and `verify`
rebuilds typed data from the proof-embedded domain, defaulting to that fixed
one. Under that condition — with recovery inverting signing for the configured
keys, full proof templates carrying no `domain`/`signer` fields, and
`expectedSigners` mapping each role to its key's derived identity — verifying
the issued credential yields exactly one result per present section plus one
document result, all with `ok = true`. The claim's concrete scenario (domain
name `T`) violates the condition and fails: see the counterexample. -/
theorem c1_round_trip (C : CryptoPrim) (vc keysCfg : Json) (vctr : String)
    (exp : Option Json) (d : Json) (m : List Json)
    (hiss : issue C vc keysCfg vctr = .ok (d, m))
    (hdom : resolveDomain (keysCfg.getKeyD "domain" (.obj [])) vctr =
      .ok defaultDomain712)
    (hcrypto : ∀ r ∈ ["identity", "compliance", "custody", "document"],
      ∀ t, C.recover t (sigOf C (cfgKey keysCfg r) t) =
        some (C.privToAddr (cfgKey keysCfg r)))
    (hexp : ∀ r ∈ ["identity", "compliance", "custody", "document"],
      pyGet (pyOrEmptyObjOpt exp) r =
        .ok (some (.str (C.privToAddr (cfgKey keysCfg r)))))
    (htmpl : ∀ p ∈ SECTION_PATHS, (getByPath vc p).isObj = true →
      ∃ pf, (getByPath vc p).getKeyOpt "sProof" = some pf ∧ pf.isObj = true ∧
        (pf.getKeyOpt "type").isSome = true ∧
        (pf.getKeyOpt "sectionHash").isSome = true ∧
        (pf.getKeyOpt "proofValue").isSome = true ∧
        pf.getKeyOpt "domain" = none ∧ pf.getKeyOpt "signer" = none)
    (hroot : ∃ rpf, vc.getKeyOpt "proof" = some rpf ∧ rpf.isObj = true ∧
      (rpf.getKeyOpt "type").isSome = true ∧
      (rpf.getKeyOpt "proofValue").isSome = true ∧
      rpf.getKeyOpt "domain" = none ∧ rpf.getKeyOpt "signer" = none) :
    ∃ res, verify C d exp = .ok res ∧
      res.map (fun j => (j.getKeyOpt "path", j.getKeyOpt "ok")) =
        (SECTION_PATHS.filter (fun p => (getByPath vc p).isObj)).map
          (fun p => (some (.str p), some (.bool true))) ++
        [(some (.str "/"), some (.bool true))] := by
  obtain ⟨domainCfg, domain, keys, oid, ocomp, ocust, odoc, i2, meta, sigdoc, addr,
    e1, e2, e3, e4, e5, e6, e7, e8, e9, ed, em⟩ := issue_ok_elim hiss
  have hdc : domainCfg = keysCfg.getKeyD "domain" (.obj []) := pyGetD_ok_eq e1
  have he2 : resolveDomain (keysCfg.getKeyD "domain" (.obj [])) vctr = .ok domain := by
    rw [← hdc]
    exact e2
  rw [he2] at hdom
  injection hdom with hdomain
  subst hdomain
  have hkeys : keys = keysCfg.getKeyD "keys" (.obj []) := pyGetD_ok_eq e3
  have hkid : oid.getD .null = cfgKey keysCfg "identity" := by
    rw [pyGet_ok_eq e4, hkeys]
    rfl
  have hkcomp : ocomp.getD .null = cfgKey keysCfg "compliance" := by
    rw [pyGet_ok_eq e5, hkeys]
    rfl
  have hkcust : ocust.getD .null = cfgKey keysCfg "custody" := by
    rw [pyGet_ok_eq e6, hkeys]
    rfl
  have hkdoc : odoc.getD .null = cfgKey keysCfg "document" := by
    rw [pyGet_ok_eq e7, hkeys]
    rfl
  rw [hkid, hkcomp, hkcust] at e8
  have hchar := issueSections_ok_char C defaultDomain712 (stripEip712 vc) _ vc [] i2 meta e8
  have hi2 : i2 = applyIssue C defaultDomain712 (stripEip712 vc)
      [("/credentialSubject/identity", cfgKey keysCfg "identity"),
       ("/credentialSubject/compliance", cfgKey keysCfg "compliance"),
       ("/credentialSubject/custody", cfgKey keysCfg "custody")] vc := hchar.1
  have hstr : stripEip712 d = stripEip712 vc := by
    rw [ed, stripEip712_updateTopProof, hi2,
      applyIssue_strip C defaultDomain712 (stripEip712 vc) _ (issuePairs_mem _ _ _) vc]
  have hstr2 : stripEip712 i2 = stripEip712 vc := by
    rw [hi2,
      applyIssue_strip C defaultDomain712 (stripEip712 vc) _ (issuePairs_mem _ _ _) vc]
  have hval : ∀ q kq,
      (q, kq) ∈ [("/credentialSubject/identity", cfgKey keysCfg "identity"),
        ("/credentialSubject/compliance", cfgKey keysCfg "compliance"),
        ("/credentialSubject/custody", cfgKey keysCfg "custody")] →
      q ∈ SECTION_PATHS →
      getByPath d q = if (getByPath vc q).isObj then
        updateSectionProof (sectionHashAt C (stripEip712 vc) q)
          (sigOf C kq (buildSectionTypedData defaultDomain712 q
            (sectionHashAt C (stripEip712 vc) q)))
          (getByPath vc q) else getByPath vc q := by
    intro q kq hqk hq
    rw [ed, getByPath_topUpd q hq, hi2]
    exact applyIssue_pairs_read C defaultDomain712 (stripEip712 vc) _ _ _ vc q kq hqk
  have hs1 := issued_sectionStep C vc exp "/credentialSubject/identity" "identity"
    (cfgKey keysCfg "identity") d rfl hstr
    (hval _ _ (List.mem_cons_self _ _) (by decide))
    (hcrypto "identity" (by decide)) (hexp "identity" (by decide))
    (htmpl _ (by decide))
  have hs2 := issued_sectionStep C vc exp "/credentialSubject/compliance" "compliance"
    (cfgKey keysCfg "compliance") d rfl hstr
    (hval _ _ (List.mem_cons_of_mem _ (List.mem_cons_self _ _)) (by decide))
    (hcrypto "compliance" (by decide)) (hexp "compliance" (by decide))
    (htmpl _ (by decide))
  have hs3 := issued_sectionStep C vc exp "/credentialSubject/custody" "custody"
    (cfgKey keysCfg "custody") d rfl hstr
    (hval _ _ (List.mem_cons_of_mem _ (List.mem_cons_of_mem _
      (List.mem_cons_self _ _))) (by decide))
    (hcrypto "custody" (by decide)) (hexp "custody" (by decide))
    (htmpl _ (by decide))
  obtain ⟨rpf, hrpf, hrobj, hrty, hrpv, hrdm, hrsg⟩ := hroot
  have hdproof : d.getKeyOpt "proof" = some (topProofWriter sigdoc rpf) := by
    rw [ed]
    show (atKey "proof" (topProofWriter sigdoc) i2).getKeyOpt "proof" = _
    rw [getKeyOpt_atKey_same, hi2,
      applyIssue_proofKey C defaultDomain712 (stripEip712 vc) _ (issuePairs_mem _ _ _) vc,
      hrpf]
    rfl
  have hdobj : d.isObj = true := getKeyOpt_isSome_isObj d "proof" (by rw [hdproof]; rfl)
  have hget : pyGet d "proof" = .ok (some (topProofWriter sigdoc rpf)) := by
    rw [pyGet_isObj_ok d "proof" hdobj, hdproof]
  have hpfobj2 : ((some (topProofWriter sigdoc rpf) : Option Json).getD .null).isObj =
      true := by
    show (topProofWriter sigdoc rpf).isObj = true
    rw [topProofWriter_isObj]
    exact hrobj
  have hdomD : parseVerifyDomain ((topProofWriter sigdoc rpf).getKeyD "domain"
      defaultDomainJson) = .ok defaultDomain712 := by
    rw [getKeyD_eq_getKeyOpt,
      topProofWriter_getKeyOpt_other _ _ _ (by decide) (by decide), hrdm]
    exact parseVerifyDomain_default
  have he9 : C.sign (cfgKey keysCfg "document")
      (buildDocumentTypedData defaultDomain712 (keccak256Json C (stripEip712 vc))) =
      some (sigdoc, addr) := by
    rw [← hkdoc]
    show C.sign (odoc.getD .null)
      (buildDocumentTypedData defaultDomain712
        (keccak256Json C (stripEip712 vc))) = some (sigdoc, addr)
    rw [← hstr2]
    exact e9
  have hsig : sigOf C (cfgKey keysCfg "document")
      (buildDocumentTypedData defaultDomain712 (keccak256Json C (stripEip712 vc))) =
      sigdoc := by
    unfold sigOf
    rw [he9]
    rfl
  have hrecD : recoverJ C (buildDocumentTypedData defaultDomain712
      (keccak256Json C (stripEip712 d)))
      ((topProofWriter sigdoc rpf).getKeyD "proofValue" (.str "")) =
        .ok (C.privToAddr (cfgKey keysCfg "document")) := by
    rw [getKeyD_eq_getKeyOpt, topProofWriter_proofValue _ _ hrobj hrpv, hstr]
    show recoverJ C (buildDocumentTypedData defaultDomain712
      (keccak256Json C (stripEip712 vc))) (.str sigdoc) = _
    apply recoverJ_str
    rw [← hsig]
    exact hcrypto "document" (by decide) _
  have hdocr := docStep_run hdomD hrecD (hexp "document" (by decide))
  have hdEx : docExpected (topProofWriter sigdoc rpf)
      (some (.str (C.privToAddr (cfgKey keysCfg "document")))) =
      some (.str (C.privToAddr (cfgKey keysCfg "document"))) := by
    unfold docExpected
    rw [topProofWriter_getKeyOpt_other _ _ _ (by decide) (by decide), hrsg]
    rfl
  have hdok : (docResult (topProofWriter sigdoc rpf)
      (C.privToAddr (cfgKey keysCfg "document"))
      (some (.str (C.privToAddr (cfgKey keysCfg "document"))))).getKeyOpt "ok" =
      some (.bool true) := by
    rw [docResult_getKeyOpt_ok, hdEx, secAddrOk_self]
    have hT : strEqPy "Eip712Signature2023"
        ((topProofWriter sigdoc rpf).getKeyOpt "type") = true := by
      rw [topProofWriter_type _ _ hrobj hrty]
      exact strEqPy_same _
    rw [hT]
    rfl
  have hdpath := docResult_getKeyOpt_path (topProofWriter sigdoc rpf)
    (C.privToAddr (cfgKey keysCfg "document"))
    (some (.str (C.privToAddr (cfgKey keysCfg "document"))))
  have H1 : ∃ o, sectionStep C d (stripEip712 d) exp
      "/credentialSubject/identity" = .ok o ∧
      o.toList.map (fun j => (j.getKeyOpt "path", j.getKeyOpt "ok")) =
        (if (getByPath vc "/credentialSubject/identity").isObj then
          [(some (.str "/credentialSubject/identity"), some (.bool true))] else []) := by
    cases hp : (getByPath vc "/credentialSubject/identity").isObj with
    | false => exact ⟨none, hs1.1 hp, by rfl⟩
    | true =>
        obtain ⟨rj, hstep, hpath, hok⟩ := hs1.2 hp
        exact ⟨some rj, hstep, by simp [hpath, hok]⟩
  have H2 : ∃ o, sectionStep C d (stripEip712 d) exp
      "/credentialSubject/compliance" = .ok o ∧
      o.toList.map (fun j => (j.getKeyOpt "path", j.getKeyOpt "ok")) =
        (if (getByPath vc "/credentialSubject/compliance").isObj then
          [(some (.str "/credentialSubject/compliance"), some (.bool true))] else []) := by
    cases hp : (getByPath vc "/credentialSubject/compliance").isObj with
    | false => exact ⟨none, hs2.1 hp, by rfl⟩
    | true =>
        obtain ⟨rj, hstep, hpath, hok⟩ := hs2.2 hp
        exact ⟨some rj, hstep, by simp [hpath, hok]⟩
  have H3 : ∃ o, sectionStep C d (stripEip712 d) exp
      "/credentialSubject/custody" = .ok o ∧
      o.toList.map (fun j => (j.getKeyOpt "path", j.getKeyOpt "ok")) =
        (if (getByPath vc "/credentialSubject/custody").isObj then
          [(some (.str "/credentialSubject/custody"), some (.bool true))] else []) := by
    cases hp : (getByPath vc "/credentialSubject/custody").isObj with
    | false => exact ⟨none, hs3.1 hp, by rfl⟩
    | true =>
        obtain ⟨rj, hstep, hpath, hok⟩ := hs3.2 hp
        exact ⟨some rj, hstep, by simp [hpath, hok]⟩
  obtain ⟨o1, ho1, hm1⟩ := H1
  obtain ⟨o2, ho2, hm2⟩ := H2
  obtain ⟨o3, ho3, hm3⟩ := H3
  have hsecs := sectionSteps_three ho1 ho2 ho3
  refine ⟨_, verify_intro_doc hsecs hget hpfobj2 hdocr, ?_⟩
  rw [List.map_append, List.map_append, List.map_append, hm1, hm2, hm3]
  simp only [List.map_cons, List.map_nil, hdpath, hdok]
  simp only [SECTION_PATHS, List.filter_cons, List.filter_nil]
  split_ifs <;> simp

/-- The C1 scenario document: identity and custody present with full proof
templates, compliance absent, root proof template present. -/
def c1Doc : Json :=
  .obj [("credentialSubject", .obj [
          ("identity", .obj [("a", .num 1),
            ("sProof", .obj [("type", .str "x"), ("sectionHash", .str ""),
              ("proofValue", .str "")])]),
          ("custody", .obj [("b", .num 2),
            ("sProof", .obj [("type", .str "x"), ("sectionHash", .str ""),
              ("proofValue", .str "")])])]),
        ("proof", .obj [("type", .str "x"), ("sectionHash", .str ""),
          ("proofValue", .str "")])]

/-- Distinct keys per role. -/
def c1Keys : Json :=
  .obj [("identity", .str "k1"), ("compliance", .str "k2"),
        ("custody", .str "k3"), ("document", .str "k4")]

/-- The claim's config: domain named `T`. -/
def c1CfgT : Json :=
  .obj [("domain", .obj [("name", .str "T"), ("version", .str "1"),
          ("chainId", .num 1)]),
        ("keys", c1Keys)]

/-- Expected signers derived from the configured keys. -/
def c1Exp : Json :=
  .obj [("identity", .str "addr:k1"), ("compliance", .str "addr:k2"),
        ("custody", .str "addr:k3"), ("document", .str "addr:k4")]

/-- Credential issued under the `T` domain. -/
def c1dT : Json :=
  match issue modelPrim c1Doc c1CfgT zeroAddr with
  | .ok (d, _) => d
  | .error _ => .null

/-- Its proof metadata. -/
def c1mT : List Json :=
  match issue modelPrim c1Doc c1CfgT zeroAddr with
  | .ok (_, m) => m
  | .error _ => []

/-- Verification results of the `T`-domain credential. -/
def c1resT : List Json :=
  match verify modelPrim c1dT (some c1Exp) with
  | .ok r => r
  | .error _ => []

set_option maxRecDepth 20000 in
/-- C1 counterexample: the claim's concrete scenario (domain name `T`,
distinct keys, expected signers from the keys' derived identities) does not
round-trip: issuing succeeds, verifying returns the two section results and
the document result, but every `ok` is `false`, because the issuer signed
under the `T` domain while the verifier rebuilds typed data under its default
`RWA-VC` domain, so each recovered signer differs from the expected one. -/
theorem c1_counterexample :
    issue modelPrim c1Doc c1CfgT zeroAddr = .ok (c1dT, c1mT) ∧
    verify modelPrim c1dT (some c1Exp) = .ok c1resT ∧
    c1resT.map (fun j => (j.getKeyOpt "path", j.getKeyOpt "ok")) =
      [(some (.str "/credentialSubject/identity"), some (.bool false)),
       (some (.str "/credentialSubject/custody"), some (.bool false)),
       (some (.str "/"), some (.bool false))] :=
  ⟨rfl, rfl, rfl⟩

/-- The amended config: the domain resolving to the verifier's default. -/
def c1Cfg : Json :=
  .obj [("domain", .obj [("name", .str "RWA-VC"), ("version", .str "1"),
          ("chainId", .num 1)]),
        ("keys", c1Keys)]

/-- Credential issued under the default domain. -/
def c1d : Json :=
  match issue modelPrim c1Doc c1Cfg zeroAddr with
  | .ok (d, _) => d
  | .error _ => .null

/-- Its proof metadata. -/
def c1m : List Json :=
  match issue modelPrim c1Doc c1Cfg zeroAddr with
  | .ok (_, m) => m
  | .error _ => []

set_option maxRecDepth 20000 in
theorem c1_witness :
    issue modelPrim c1Doc c1Cfg zeroAddr = .ok (c1d, c1m) ∧
    resolveDomain (c1Cfg.getKeyD "domain" (.obj [])) zeroAddr =
      .ok defaultDomain712 ∧
    ∃ res, verify modelPrim c1d (some c1Exp) = .ok res ∧
      res.map (fun j => (j.getKeyOpt "path", j.getKeyOpt "ok")) =
        (SECTION_PATHS.filter (fun p => (getByPath c1Doc p).isObj)).map
          (fun p => (some (.str p), some (.bool true))) ++
        [(some (.str "/"), some (.bool true))] :=
  ⟨rfl, rfl,
   c1_round_trip modelPrim c1Doc c1Cfg zeroAddr (some c1Exp) c1d c1m rfl rfl
     (by
       intro r hr t
       simp only [List.mem_cons, List.not_mem_nil, or_false] at hr
       rcases hr with rfl | rfl | rfl | rfl
       · exact modelRecover_sign "k1" t
       · exact modelRecover_sign "k2" t
       · exact modelRecover_sign "k3" t
       · exact modelRecover_sign "k4" t)
     (by
       intro r hr
       simp only [List.mem_cons, List.not_mem_nil, or_false] at hr
       rcases hr with rfl | rfl | rfl | rfl
       · rfl
       · rfl
       · rfl
       · rfl)
     (by
       intro p hp
       rcases sectionPath_cases hp with rfl | rfl | rfl
       · intro _
         exact ⟨.obj [("type", .str "x"), ("sectionHash", .str ""),
           ("proofValue", .str "")], rfl, rfl, rfl, rfl, rfl, rfl, rfl⟩
       · intro h
         exact absurd h (by decide)
       · intro _
         exact ⟨.obj [("type", .str "x"), ("sectionHash", .str ""),
           ("proofValue", .str "")], rfl, rfl, rfl, rfl, rfl, rfl, rfl⟩)
     ⟨.obj [("type", .str "x"), ("sectionHash", .str ""), ("proofValue", .str "")],
       rfl, rfl, rfl, rfl, rfl, rfl⟩⟩

end RwaVc
